import Mathlib

/-!
Verification of the order-intake workflow of the `nordlayer-bot` repository.

The Python sources are embedded shallowly:

* `session_manager.py` — `OrderStep`, `OrderSession` (with `to_order_data`,
  `is_complete`) and the `SessionManager` store operations;
* `order_handlers.py` / `order_handlers_backup.py` — the validators
  (`_validate_name`, `_validate_email`, `_validate_phone`), the pre-submission
  check `_validate_order_data`, the per-step handlers and the navigation
  handlers;
* `main.py` — the dispatch of text messages and callback buttons onto those
  handlers.

Python strings are `String`, `None`-able attributes are `Option`s, Python
dicts are association lists with Python assignment semantics (`dictSet`),
and each handler is a pure function from session (or store) to session.
Regular expressions used by the validators are replaced by equivalent
executable matchers over `List Char`.
-/

/-! ## Python string primitives -/

/-- Characters stripped by Python `str.strip()` and matched by the regex
class `\s` (ASCII part: space, tab, LF, VT, FF, CR). -/

def isPyWs (c : Char) : Bool :=
  c = ' ' || c = '\t' || c = '\n' || c = '\x0b' || c = '\x0c' || c = '\r'

/-- Python `str.strip()` on a character list: drop whitespace at both ends. -/

def pyStripL (cs : List Char) : List Char :=
  ((cs.dropWhile isPyWs).reverse.dropWhile isPyWs).reverse

/-- Python `str.strip()`. -/

def pyStrip (s : String) : String :=
  ⟨pyStripL s.toList⟩

/-- Python `str.lower()` (ASCII range; every string this program lowercases
has already passed an ASCII-only validator). -/

def pyLower (s : String) : String :=
  ⟨s.toList.map Char.toLower⟩

/-- Truthiness of an optional string, as Python `if x:` sees it
(`None` and `""` are falsy). -/

def truthyOpt : Option String → Bool
  | none => false
  | some s => s ≠ ""

/-! ## Association lists with Python dict assignment semantics -/

/-- Python `d[k] = v`: overwrite in place if the key exists (keeping its
position), otherwise append at the end. -/

def dictSet {α : Type} (d : List (String × α)) (k : String) (v : α) :
    List (String × α) :=
  if d.any (fun p => p.1 = k) then
    d.map (fun p => if p.1 = k then (k, v) else p)
  else
    d ++ [(k, v)]

/-- Python `k in d`. -/

def dictHasKey {α : Type} (d : List (String × α)) (k : String) : Bool :=
  d.any (fun p => p.1 = k)

/-- Python `d.pop(k, None)`: drop the key if present. -/

def dictPop {α : Type} (d : List (String × α)) (k : String) :
    List (String × α) :=
  d.filter (fun p => p.1 ≠ k)

/-! ## Validators (`order_handlers.py` lines 252–276, identical in
`order_handlers_backup.py` lines 886–910) -/

/-- Character class `[a-zA-Zа-яА-ЯёЁ\s\-']` of `_validate_name`. -/

def isNameChar (c : Char) : Bool :=
  c.isAlpha
    || (0x430 ≤ c.toNat && c.toNat ≤ 0x44F)   -- а-я
    || (0x410 ≤ c.toNat && c.toNat ≤ 0x42F)   -- А-Я
    || c.toNat = 0x451 || c.toNat = 0x401     -- ё Ё
    || isPyWs c
    || c = '-'
    || c.toNat = 39                           -- apostrophe

/-- `OrderHandlers._validate_name`: falsy or trimmed length < 2 rejected,
trimmed length > 50 rejected, otherwise the trimmed string must match
`^[a-zA-Zа-яА-ЯёЁ\s\-']+$`. -/

def validate_name (name : String) : Bool :=
  let t := pyStripL name.toList
  if t.length < 2 then false
  else if t.length > 50 then false
  else t.all isNameChar

/-- Character class `[a-zA-Z0-9._%+-]` (local part of the email regex). -/

def isLocalChar (c : Char) : Bool :=
  c.isAlpha || c.isDigit || c = '.' || c = '_' || c = '%' || c = '+' || c = '-'

/-- Character class `[a-zA-Z0-9.-]` (domain part of the email regex). -/

def isDomainChar (c : Char) : Bool :=
  c.isAlpha || c.isDigit || c = '.' || c = '-'

/-- Executable matcher for the anchored regex
`^[a-zA-Z0-9._%+-]+@[a-zA-Z0-9.-]+\.[a-zA-Z]{2,}$`.

The classes exclude `@`, and the final `[a-zA-Z]{2,}` excludes `.`, so a
match must split at the first `@` and at the last `.` after it; the matcher
performs exactly that split. -/

def emailMatch (cs : List Char) : Bool :=
  let l := cs.takeWhile (fun c => !(c = '@' : Bool))
  match cs.dropWhile (fun c => !(c = '@' : Bool)) with
  | [] => false
  | _ :: rest =>
    let tRev := rest.reverse.takeWhile (fun c => !(c = '.' : Bool))
    match rest.reverse.dropWhile (fun c => !(c = '.' : Bool)) with
    | [] => false
    | _ :: dRev =>
      decide (l ≠ []) && l.all isLocalChar
        && decide (dRev ≠ []) && dRev.all isDomainChar
        && decide (2 ≤ tRev.length) && tRev.all Char.isAlpha

/-- `OrderHandlers._validate_email`: empty rejected, otherwise the stripped
string must match the email regex. -/

def validate_email (email : String) : Bool :=
  if email = "" then false
  else emailMatch (pyStripL email.toList)

/-- Core of the phone regex after the optional `+`: `[1-9]\d{6,14}$`. -/

def phoneCore (d : Char) (ds : List Char) : Bool :=
  d.isDigit && decide (d ≠ '0') && ds.all Char.isDigit
    && decide (6 ≤ ds.length) && decide (ds.length ≤ 14)

/-- Executable matcher for the anchored regex `^\+?[1-9]\d{6,14}$`: an
optional leading `+` (which `[1-9]` can never match, so no backtracking
arises), then a non-zero digit and 6 to 14 further digits. -/

def phoneRegexMatch (cs : List Char) : Bool :=
  match cs with
  | [] => false
  | c :: rest =>
    if c = '+' then
      match rest with
      | [] => false
      | d :: ds => phoneCore d ds
    else phoneCore c rest

/-- `OrderHandlers._validate_phone`: empty is accepted (phone optional);
otherwise all characters other than digits and `+` are removed
(`re.sub(r'[^\d+]', '', phone)`) and the residue must match
`^\+?[1-9]\d{6,14}$`. -/

def validate_phone (phone : String) : Bool :=
  if phone = "" then true
  else phoneRegexMatch (phone.toList.filter (fun c => c.isDigit || c = '+'))

/-! ## Data model (`session_manager.py`) -/

/-- `OrderStep` enumeration (`session_manager.py` lines 14–23). -/

inductive OrderStep where
  | start
  | service_selection
  | contact_info
  | file_upload
  | specifications
  | delivery
  | confirmation
  | completed
deriving DecidableEq, Repr

/-- One entry of `OrderSession.files` (built in `handle_file_upload`,
`order_handlers_backup.py` lines 343–348). -/

structure FileInfo where
  filename : String
  size : Option Nat
  telegram_file_id : String
  upload_result : String
deriving DecidableEq, Repr

/-- `OrderSession` dataclass (`session_manager.py` lines 26–40).
`specifications` is a Python dict keyed by parameter name with string
values; `created_at` is an abstract timestamp. -/

structure OrderSession where
  user_id : Nat
  step : OrderStep := OrderStep.start
  service_id : Option Nat := none
  service_name : Option String := none
  customer_name : Option String := none
  customer_email : Option String := none
  customer_phone : Option String := none
  files : List FileInfo := []
  specifications : List (String × String) := []
  delivery_needed : Option Bool := none
  delivery_details : Option String := none
  created_at : Nat := 0
deriving DecidableEq, Repr

/-- Leaf values appearing in the order payload dict (the payload built by
`to_order_data` nests dicts exactly one level deep, under `specifications`,
so leaf values and dict values can be separate types). -/

inductive SVal where
  | vStr : String → SVal
  | vNat : Nat → SVal
  | vNone : SVal
  | vFiles : List FileInfo → SVal
deriving DecidableEq, Repr

/-- Top-level payload values: a leaf or the nested `specifications` dict. -/

inductive PVal where
  | leaf : SVal → PVal
  | dict : List (String × SVal) → PVal
deriving DecidableEq, Repr

/-- A Python `Optional[str]` as a payload leaf. -/

def optStrVal : Option String → SVal
  | none => SVal.vNone
  | some s => SVal.vStr s

/-- A Python `Optional[int]` as a payload leaf. -/

def optNatVal : Option Nat → SVal
  | none => SVal.vNone
  | some n => SVal.vNat n

/-- `OrderSession.to_order_data` (`session_manager.py` lines 42–79),
key for key in the order the Python code inserts them. -/

def OrderSession.to_order_data (s : OrderSession) : List (String × PVal) :=
  let specifications :=
    let base := s.specifications.map (fun p => (p.1, SVal.vStr p.2))
    let d := dictSet base "files_info" (SVal.vFiles s.files)
    let d := dictSet d "order_source" (SVal.vStr "telegram_bot")
    let d := dictSet d "bot_user_id" (SVal.vNat s.user_id)
    if truthyOpt s.customer_phone then
      dictSet d "customer_phone" (optStrVal s.customer_phone)
    else d
  let order_data :=
    [("customer_name", PVal.leaf (optStrVal s.customer_name)),
     ("customer_email", PVal.leaf (optStrVal s.customer_email)),
     ("customer_phone", PVal.leaf (optStrVal s.customer_phone)),
     ("service_id", PVal.leaf (optNatVal s.service_id)),
     ("source", PVal.leaf (SVal.vStr "TELEGRAM")),
     ("specifications", PVal.dict specifications)]
  let order_data :=
    match s.delivery_needed with
    | none => order_data
    | some b =>
      let od := dictSet order_data "delivery_needed"
        (PVal.leaf (SVal.vStr (if b then "true" else "false")))
      if truthyOpt s.delivery_details then
        dictSet od "delivery_details" (PVal.leaf (optStrVal s.delivery_details))
      else od
  dictSet order_data "customer_contact" (PVal.leaf (optStrVal s.customer_email))

/-- `OrderSession.is_complete` (`session_manager.py` lines 81–89):
`customer_name`, `customer_email`, `service_id` all not `None` and
`len(files) > 0`. -/

def OrderSession.is_complete (s : OrderSession) : Bool :=
  s.customer_name.isSome && s.customer_email.isSome && s.service_id.isSome
    && decide (0 < s.files.length)

/-! ## Session store (`SessionManager`) -/

/-- The `SessionManager.sessions` dict, keyed by user id. -/

def SessionStore := List (Nat × OrderSession)
deriving DecidableEq

/-- Python `user_id in self.sessions`. -/

def storeHas (st : SessionStore) (uid : Nat) : Bool :=
  (st : List (Nat × OrderSession)).any (fun p => p.1 = uid)

/-- `SessionManager.get_session`. -/

def get_session (st : SessionStore) (uid : Nat) : Option OrderSession :=
  ((st : List (Nat × OrderSession)).find? (fun p => p.1 = uid)).map Prod.snd

/-- `SessionManager.clear_session` (`session_manager.py` lines 194–208):
delete the entry if present and report whether one existed. -/

def clear_session (st : SessionStore) (uid : Nat) : SessionStore × Bool :=
  if storeHas st uid then
    ((st : List (Nat × OrderSession)).filter (fun p => ¬ p.1 = uid), true)
  else (st, false)

/-! ## Workflow handlers (`order_handlers_backup.py`)

Each Telegram handler is embedded as a pure function on the session (plus
explicit inputs for the data the transport layer or the API collaborator
supplies).  A handler that rejects its input returns the session unchanged,
exactly as the Python code returns early without mutating it. -/

/-- Incoming Telegram document (`update.message.document`). -/

structure TgDocument where
  file_name : Option String
  file_size : Option Nat
  file_id : String
  mime_type : String
deriving DecidableEq, Repr

/-- Outcome of `handle_file_upload`, used to observe which branch ran and
in particular whether the external upload call was made. -/

inductive FileUploadOutcome where
  | invalidStep
  | noFile
  | fileNotFound
  | invalidFormat
  | fileTooLarge
  | uploaded
  | uploadFailed
deriving DecidableEq, Repr

/-- `handle_service_selection` (lines 92–126): no step guard; `found`
models whether the chosen id resolves via the catalog lookup.  On success
stores `service_id`/`service_name` and moves to `CONTACT_INFO`. -/

def handle_service_selection (s : OrderSession) (sid : Nat) (sname : String)
    (found : Bool) : OrderSession :=
  if found then
    { s with service_id := some sid, service_name := some sname,
             step := OrderStep.contact_info }
  else s

/-- `handle_contact_name` (lines 153–181): requires step `CONTACT_INFO` and
a valid name; stores the stripped name (step unchanged, email asked next). -/

def handle_contact_name (s : OrderSession) (name : String) : OrderSession :=
  if s.step = OrderStep.contact_info then
    if validate_name name then { s with customer_name := some (pyStrip name) }
    else s
  else s

/-- `handle_contact_email` (lines 183–213): requires step `CONTACT_INFO` and
a valid email; stores `email.strip().lower()` (step unchanged). -/

def handle_contact_email (s : OrderSession) (email : String) : OrderSession :=
  if s.step = OrderStep.contact_info then
    if validate_email email then
      { s with customer_email := some (pyLower (pyStrip email)) }
    else s
  else s

/-- `handle_contact_phone` (lines 215–233): requires step `CONTACT_INFO`;
a truthy invalid phone is rejected, otherwise the stripped phone (or `None`
for an empty text) is stored and the step moves to `FILE_UPLOAD`. -/

def handle_contact_phone (s : OrderSession) (phone : String) : OrderSession :=
  if s.step = OrderStep.contact_info then
    if phone ≠ "" ∧ validate_phone phone = false then s
    else
      { s with customer_phone := if phone ≠ "" then some (pyStrip phone) else none,
               step := OrderStep.file_upload }
  else s

/-- `skip_phone_step` (lines 235–247): requires step `CONTACT_INFO`; clears
the phone and moves to `FILE_UPLOAD`. -/

def skip_phone_step (s : OrderSession) : OrderSession :=
  if s.step = OrderStep.contact_info then
    { s with customer_phone := none, step := OrderStep.file_upload }
  else s

/-- The `supported_formats = ('.stl', '.obj', '.3mf')` check:
`file.file_name.lower().endswith(supported_formats)`. -/

def fileFormatOk (filename : String) : Bool :=
  let lower := (pyLower filename).toList
  ([".stl", ".obj", ".3mf"] : List String).any
    (fun ext => ext.toList.isSuffixOf lower)

/-- The 50 MB limit of `handle_file_upload`. -/

def maxFileSize : Nat := 50 * 1024 * 1024

/-- `handle_file_upload` (lines 299–372).  `uploadOk` models whether the
API-client upload call succeeds, `uploadRes` its stored reference.  The
outcome records the branch taken; the upload call is made only on the
`uploaded`/`uploadFailed` outcomes. -/

def handle_file_upload (s : OrderSession) (doc : Option TgDocument)
    (uploadOk : Bool) (uploadRes : String) :
    OrderSession × FileUploadOutcome :=
  if s.step ≠ OrderStep.file_upload then (s, FileUploadOutcome.invalidStep)
  else
    match doc with
    | none => (s, FileUploadOutcome.noFile)
    | some f =>
      match f.file_name with
      | none => (s, FileUploadOutcome.fileNotFound)
      | some fname =>
        if fname = "" then (s, FileUploadOutcome.fileNotFound)
        else if ¬ fileFormatOk fname then (s, FileUploadOutcome.invalidFormat)
        else if (match f.file_size with
                 | some n => decide (n ≠ 0) && decide (n > maxFileSize)
                 | none => false) then
          (s, FileUploadOutcome.fileTooLarge)
        else if uploadOk then
          ({ s with files := s.files ++
              [{ filename := fname, size := f.file_size,
                 telegram_file_id := f.file_id, upload_result := uploadRes }] },
           FileUploadOutcome.uploaded)
        else (s, FileUploadOutcome.uploadFailed)

/-- `continue_with_files` (lines 374–386): requires non-empty `files`
(no step guard); moves to `SPECIFICATIONS`. -/

def continue_with_files (s : OrderSession) : OrderSession :=
  if s.files ≠ [] then { s with step := OrderStep.specifications } else s

/-- `handle_material_selection` (lines 415–449): requires step
`SPECIFICATIONS`; stores `specifications["material"]` (step unchanged,
quality asked next). -/

def handle_material_selection (s : OrderSession) (material : String) :
    OrderSession :=
  if s.step = OrderStep.specifications then
    { s with specifications := dictSet s.specifications "material" material }
  else s

/-- `handle_quality_selection` (lines 451–485): requires step
`SPECIFICATIONS`; stores `specifications["quality"]` (step unchanged). -/

def handle_quality_selection (s : OrderSession) (quality : String) :
    OrderSession :=
  if s.step = OrderStep.specifications then
    { s with specifications := dictSet s.specifications "quality" quality }
  else s

/-- `handle_infill_selection` (lines 487–500): requires step
`SPECIFICATIONS`; stores `specifications["infill"]` and moves to
`DELIVERY`. -/

def handle_infill_selection (s : OrderSession) (infill : String) :
    OrderSession :=
  if s.step = OrderStep.specifications then
    { s with specifications := dictSet s.specifications "infill" infill,
             step := OrderStep.delivery }
  else s

/-- `handle_delivery_pickup` (lines 540–553): requires step `DELIVERY`;
sets `delivery_needed = False`, clears the address, moves to
`CONFIRMATION`. -/

def handle_delivery_pickup (s : OrderSession) : OrderSession :=
  if s.step = OrderStep.delivery then
    { s with delivery_needed := some false, delivery_details := none,
             step := OrderStep.confirmation }
  else s

/-- `handle_delivery_shipping` (lines 555–578): requires step `DELIVERY`;
sets `delivery_needed = True` and stays at `DELIVERY` awaiting the
address. -/

def handle_delivery_shipping (s : OrderSession) : OrderSession :=
  if s.step = OrderStep.delivery then
    { s with delivery_needed := some true }
  else s

/-- `handle_delivery_address` (lines 580–599): requires step `DELIVERY`;
rejects addresses whose stripped length is below 10, otherwise stores the
stripped address and moves to `CONFIRMATION`. -/

def handle_delivery_address (s : OrderSession) (address : String) :
    OrderSession :=
  if s.step = OrderStep.delivery then
    if (pyStripL address.toList).length < 10 then s
    else
      { s with delivery_details := some (pyStrip address),
               step := OrderStep.confirmation }
  else s

/-! ## Navigation handlers (`order_handlers_backup.py` lines 779–883) -/

/-- `back_to_services` (lines 780–786): reset the step only. -/

def back_to_services (s : OrderSession) : OrderSession :=
  { s with step := OrderStep.service_selection }

/-- `back_to_contacts` (lines 788–794): reset the step only. -/

def back_to_contacts (s : OrderSession) : OrderSession :=
  { s with step := OrderStep.contact_info }

/-- `back_to_files` (lines 796–802): reset the step only. -/

def back_to_files (s : OrderSession) : OrderSession :=
  { s with step := OrderStep.file_upload }

/-- `back_to_specs` (lines 804–810): reset the step only. -/

def back_to_specs (s : OrderSession) : OrderSession :=
  { s with step := OrderStep.specifications }

/-- `back_to_delivery` (lines 812–818): reset the step only. -/

def back_to_delivery (s : OrderSession) : OrderSession :=
  { s with step := OrderStep.delivery }

/-- `back_to_confirmation` (lines 820–826): reset the step only — there is
no guard on the current step or on the collected data. -/

def back_to_confirmation (s : OrderSession) : OrderSession :=
  { s with step := OrderStep.confirmation }

/-- `remove_last_file` (lines 828–862): pops the newest file entry when one
exists, regardless of the current step. -/

def remove_last_file (s : OrderSession) : OrderSession :=
  if s.files = [] then s else { s with files := s.files.dropLast }

/-- `back_to_material` (lines 864–872): pops `quality` and `infill` from
the specifications (the step is not changed). -/

def back_to_material (s : OrderSession) : OrderSession :=
  { s with specifications :=
      dictPop (dictPop s.specifications "quality") "infill" }

/-- `back_to_quality` (lines 874–883): when `specifications.get("material")`
is truthy, pops `infill` and re-runs `handle_material_selection` with the
stored material; otherwise nothing is popped. -/

def back_to_quality (s : OrderSession) : OrderSession :=
  match s.specifications.lookup "material" with
  | some m =>
    if m ≠ "" then
      handle_material_selection
        { s with specifications := dictPop s.specifications "infill" } m
    else s
  | none => s

/-! ## Pre-submission validation and order confirmation
(`order_handlers.py` lines 153–196 and 308–408; the backup file carries the
same `_validate_order_data` and `confirm_order` bodies) -/

/-- `OrderHandlers._validate_order_data`: first failing check wins, `none`
means the session is valid for submission. -/

def validate_order_data (s : OrderSession) : Option String :=
  if s.customer_name = none
      ∨ (pyStripL ((s.customer_name.getD "").toList)).length < 2 then
    some "Имя клиента должно содержать минимум 2 символа"
  else if ¬ truthyOpt s.customer_email
      ∨ validate_email (s.customer_email.getD "") = false then
    some "Некорректный email адрес"
  else if s.service_id = none ∨ s.service_id = some 0 then
    some "Не выбрана услуга"
  else if s.files = [] then
    some "Необходимо загрузить хотя бы один файл"
  else if truthyOpt s.customer_phone
      ∧ validate_phone (s.customer_phone.getD "") = false then
    some "Некорректный номер телефона"
  else if s.specifications = [] then
    some "Не указаны параметры печати"
  else if ¬ dictHasKey s.specifications "material" then
    some ("Не указан параметр: " ++ "material")
  else if ¬ dictHasKey s.specifications "quality" then
    some ("Не указан параметр: " ++ "quality")
  else if ¬ dictHasKey s.specifications "infill" then
    some ("Не указан параметр: " ++ "infill")
  else if s.delivery_needed = none then
    some "Не выбран способ получения заказа"
  else if s.delivery_needed = some true ∧ ¬ truthyOpt s.delivery_details then
    some "Не указан адрес доставки"
  else none

/-- Outcome of `confirm_order`; the external order-creation call is made
exactly on the `orderCreated`/`apiFailed` outcomes. -/

inductive ConfirmOutcome where
  | invalidStep
  | validationError : String → ConfirmOutcome
  | incomplete
  | orderCreated : List (String × PVal) → ConfirmOutcome
  | apiFailed
deriving DecidableEq, Repr

/-- `confirm_order` (`order_handlers.py` lines 308–408) at store level.
`apiOk` models whether `api_client.create_order` succeeds.  The returned
`Bool` is true iff the external order-creation call was made.  On success
the session step is set to `COMPLETED` and the session is cleared from the
store; on an API error the session is left untouched (the step was not yet
advanced when the exception was raised). -/

def confirm_order (st : SessionStore) (uid : Nat) (apiOk : Bool) :
    ConfirmOutcome × SessionStore × Bool :=
  match get_session st uid with
  | none => (ConfirmOutcome.invalidStep, st, false)
  | some s =>
    if s.step ≠ OrderStep.confirmation then
      (ConfirmOutcome.invalidStep, st, false)
    else
      match validate_order_data s with
      | some msg => (ConfirmOutcome.validationError msg, st, false)
      | none =>
        if ¬ s.is_complete then (ConfirmOutcome.incomplete, st, false)
        else if apiOk then
          (ConfirmOutcome.orderCreated s.to_order_data,
           (clear_session st uid).1, true)
        else (ConfirmOutcome.apiFailed, st, true)

/-! ## Dispatch (`main.py`) and reachability -/

/-- `start_order_process` (`order_handlers*.py` lines 27–40): a fresh
session (dataclass defaults) whose step is then set to
`SERVICE_SELECTION`. -/

def start_order (uid : Nat) : OrderSession :=
  { user_id := uid, step := OrderStep.service_selection }

/-- Session-level effect of `confirm_order`: when all guards pass and the
API call succeeds the step becomes `COMPLETED` (the store entry is then
cleared); in every other case the session is unchanged. -/

def confirm_session (s : OrderSession) (apiOk : Bool) : OrderSession :=
  if s.step = OrderStep.confirmation ∧ validate_order_data s = none
      ∧ s.is_complete = true ∧ apiOk = true then
    { s with step := OrderStep.completed }
  else s

/-- `handle_text_message` (`main.py` lines 344–399): at `CONTACT_INFO` the
text goes to the name, email or phone handler according to which fields are
already populated; at `DELIVERY` with `delivery_needed` truthy it goes to
the address handler; at every other step text is ignored. -/

def dispatchText (s : OrderSession) (t : String) : OrderSession :=
  if s.step = OrderStep.contact_info then
    if ¬ truthyOpt s.customer_name then handle_contact_name s t
    else if ¬ truthyOpt s.customer_email then handle_contact_email s t
    else if s.customer_phone = none then handle_contact_phone s t
    else s
  else if s.step = OrderStep.delivery ∧ s.delivery_needed = some true then
    handle_delivery_address s t
  else s

/-- One user action, as routed by `main.py`'s callback and message
handlers.  Catalog and upload results appear as explicit inputs. -/

inductive Act where
  | startOrder
  | selectService (sid : Nat) (sname : String) (found : Bool)
  | textMsg (t : String)
  | skipPhone
  | uploadFile (doc : Option TgDocument) (ok : Bool) (res : String)
  | continueFiles
  | chooseMaterial (m : String)
  | chooseQuality (q : String)
  | chooseInfill (i : String)
  | pickup
  | shipping
  | confirm (apiOk : Bool)
  | backServices
  | backContacts
  | backFiles
  | backSpecs
  | backDelivery
  | backConfirmation
  | removeLast
  | backMaterial
  | backQuality
deriving DecidableEq, Repr

/-- Effect of one dispatched action on the user's session. -/

def applyAct (a : Act) (s : OrderSession) : OrderSession :=
  match a with
  | Act.startOrder => start_order s.user_id
  | Act.selectService sid sname found =>
      handle_service_selection s sid sname found
  | Act.textMsg t => dispatchText s t
  | Act.skipPhone => skip_phone_step s
  | Act.uploadFile doc ok res => (handle_file_upload s doc ok res).1
  | Act.continueFiles => continue_with_files s
  | Act.chooseMaterial m => handle_material_selection s m
  | Act.chooseQuality q => handle_quality_selection s q
  | Act.chooseInfill i => handle_infill_selection s i
  | Act.pickup => handle_delivery_pickup s
  | Act.shipping => handle_delivery_shipping s
  | Act.confirm apiOk => confirm_session s apiOk
  | Act.backServices => back_to_services s
  | Act.backContacts => back_to_contacts s
  | Act.backFiles => back_to_files s
  | Act.backSpecs => back_to_specs s
  | Act.backDelivery => back_to_delivery s
  | Act.backConfirmation => back_to_confirmation s
  | Act.removeLast => remove_last_file s
  | Act.backMaterial => back_to_material s
  | Act.backQuality => back_to_quality s

/-- Session states reachable from session creation by any sequence of
dispatched user actions (forward steps, backward navigation, edit-menu
navigation, file removal, confirmation). -/

inductive ReachableSession : OrderSession → Prop where
  | created (uid : Nat) : ReachableSession (start_order uid)
  | next (a : Act) {s : OrderSession} :
      ReachableSession s → ReachableSession (applyAct a s)

/-- Session states reachable using only the forward transitions, fired in
the order the inline keyboards offer them: text input as routed by field
nullability, the phone-skip button only once name and email are collected,
quality only once a material is chosen, infill only once a quality is
chosen.  Backward navigation, edit-menu navigation and remove-last-file
are excluded. -/

inductive ForwardReachable : OrderSession → Prop where
  | created (uid : Nat) : ForwardReachable (start_order uid)
  | restart {s : OrderSession} :
      ForwardReachable s → ForwardReachable (start_order s.user_id)
  | service (sid : Nat) (sname : String) (found : Bool) {s : OrderSession} :
      ForwardReachable s →
      ForwardReachable (handle_service_selection s sid sname found)
  | text (t : String) {s : OrderSession} :
      ForwardReachable s → ForwardReachable (dispatchText s t)
  | skip {s : OrderSession} :
      ForwardReachable s →
      truthyOpt s.customer_name = true →
      truthyOpt s.customer_email = true →
      ForwardReachable (skip_phone_step s)
  | upload (doc : Option TgDocument) (ok : Bool) (res : String)
      {s : OrderSession} :
      ForwardReachable s →
      ForwardReachable (handle_file_upload s doc ok res).1
  | contFiles {s : OrderSession} :
      ForwardReachable s → ForwardReachable (continue_with_files s)
  | material (m : String) {s : OrderSession} :
      ForwardReachable s → ForwardReachable (handle_material_selection s m)
  | quality (q : String) {s : OrderSession} :
      ForwardReachable s →
      dictHasKey s.specifications "material" = true →
      ForwardReachable (handle_quality_selection s q)
  | infill (i : String) {s : OrderSession} :
      ForwardReachable s →
      dictHasKey s.specifications "material" = true →
      dictHasKey s.specifications "quality" = true →
      ForwardReachable (handle_infill_selection s i)
  | pickupStep {s : OrderSession} :
      ForwardReachable s → ForwardReachable (handle_delivery_pickup s)
  | shippingStep {s : OrderSession} :
      ForwardReachable s → ForwardReachable (handle_delivery_shipping s)
  | confirmStep (apiOk : Bool) {s : OrderSession} :
      ForwardReachable s → ForwardReachable (confirm_session s apiOk)

/-! ## The email regex language -/

/-- The language of `^[a-zA-Z0-9._%+-]+@[a-zA-Z0-9.-]+\.[a-zA-Z]{2,}$`
stated structurally: local part, `@`, domain part, `.`, a TLD of at least
two letters. -/

def EmailShape (cs : List Char) : Prop :=
  ∃ l d t : List Char,
    cs = l ++ '@' :: (d ++ '.' :: t) ∧
    l ≠ [] ∧ (∀ c ∈ l, isLocalChar c = true) ∧
    d ≠ [] ∧ (∀ c ∈ d, isDomainChar c = true) ∧
    2 ≤ t.length ∧ (∀ c ∈ t, c.isAlpha = true)

/-! ## Claim C4 — `_validate_phone` -/

/-- The residue kept by `re.sub(r'[^\d+]', '', phone)`. -/

def phoneResidue (s : String) : List Char :=
  s.toList.filter (fun c => c.isDigit || c = '+')

/-- Structural description of `^\+?[1-9]\d{6,14}$`: an optional leading
`+`, then a digit other than `0`, then 6–14 digits (7–15 digits in all,
and no further `+` anywhere). -/

def PhoneShape (cs : List Char) : Prop :=
  ∃ (d : Char) (ds : List Char),
    (cs = d :: ds ∨ cs = '+' :: d :: ds)
    ∧ d.isDigit = true ∧ d ≠ '0'
    ∧ (∀ c ∈ ds, c.isDigit = true)
    ∧ 6 ≤ ds.length ∧ ds.length ≤ 14

/-! ## Claim C5 — `_validate_name` -/

/-- Stated from the claim's words: a "letter (including extended/diacritic
alphabets)" — ASCII letters, Latin-1/Latin-Extended letters, Cyrillic. -/

def specNameLetter (c : Char) : Bool :=
  c.isAlpha || (0xC0 ≤ c.toNat && c.toNat ≤ 0x24F)
    || (0x400 ≤ c.toNat && c.toNat ≤ 0x4FF)

/-- Stated from the claim's words: letters, spaces, hyphens, apostrophes. -/

def specNameChar (c : Char) : Bool :=
  specNameLetter c || c = ' ' || c = '-' || c.toNat = 39

/-- The ASCII class `[A-Za-z\- ']` of the claim's particular case. -/

def asciiNameChar (c : Char) : Bool :=
  c.isAlpha || c = '-' || c = ' ' || c.toNat = 39

/-- The fresh session used by the concrete upload/confirmation scenarios:
user 1 after service selection, contacts and phone skip. -/

def demoUploadSession : OrderSession :=
  { user_id := 1, step := OrderStep.file_upload, service_id := some 1,
    service_name := some "3D print", customer_name := some "Jane Doe",
    customer_email := some "jane@x.com" }

/-- The confirmation-step session of the missing-`infill` scenario. -/

def missingInfillSession : OrderSession :=
  { user_id := 1, step := OrderStep.confirmation, service_id := some 1,
    service_name := some "3D print", customer_name := some "Jane Doe",
    customer_email := some "jane@x.com",
    files := [{ filename := "model.stl", size := some 2097152,
                telegram_file_id := "tg1", upload_result := "ref" }],
    specifications := [("material", "pla"), ("quality", "standard")],
    delivery_needed := some false }

/-! ## Claim C8 — backward navigation effects -/

/-- A session sitting at `SPECIFICATIONS` with all three parameters set. -/

def c8FullSpecSession : OrderSession :=
  { user_id := 2, step := OrderStep.specifications,
    specifications :=
      [("material", "pla"), ("quality", "standard"), ("infill", "30")] }

/-- A session at `SPECIFICATIONS` holding quality and infill but no
material (reachable because `handle_quality_selection` checks only the
step, not that a material was chosen). -/

def c8NoMaterialSession : OrderSession :=
  { user_id := 2, step := OrderStep.specifications,
    specifications := [("quality", "standard"), ("infill", "30")] }

/-! ## Claim C1 — the submission payload -/

/-- The payload exactly as the claim describes it: the specifications
entry is the specifications map plus `files_info`, `order_source` and
`bot_user_id` only, and `delivery_details` is added only when delivery is
needed and details are present. -/

def to_order_data_claim (s : OrderSession) : List (String × PVal) :=
  let specifications :=
    s.specifications.map (fun p => (p.1, SVal.vStr p.2))
      ++ [("files_info", SVal.vFiles s.files),
          ("order_source", SVal.vStr "telegram_bot"),
          ("bot_user_id", SVal.vNat s.user_id)]
  [("customer_name", PVal.leaf (optStrVal s.customer_name)),
   ("customer_email", PVal.leaf (optStrVal s.customer_email)),
   ("customer_phone", PVal.leaf (optStrVal s.customer_phone)),
   ("service_id", PVal.leaf (optNatVal s.service_id)),
   ("source", PVal.leaf (SVal.vStr "TELEGRAM")),
   ("specifications", PVal.dict specifications)]
  ++ (match s.delivery_needed with
      | none => []
      | some b =>
        ("delivery_needed", PVal.leaf (SVal.vStr (if b then "true" else "false")))
          :: (if b ∧ truthyOpt s.delivery_details then
                [("delivery_details", PVal.leaf (optStrVal s.delivery_details))]
              else []))
  ++ [("customer_contact", PVal.leaf (optStrVal s.customer_email))]

/-- The payload as the code actually builds it: additionally, a truthy
`customer_phone` is copied into the specifications dict, and
`delivery_details` is added whenever `delivery_needed` is non-null and the
details are truthy — even when `delivery_needed` is false. -/

def to_order_data_amended (s : OrderSession) : List (String × PVal) :=
  let specifications :=
    s.specifications.map (fun p => (p.1, SVal.vStr p.2))
      ++ [("files_info", SVal.vFiles s.files),
          ("order_source", SVal.vStr "telegram_bot"),
          ("bot_user_id", SVal.vNat s.user_id)]
      ++ (if truthyOpt s.customer_phone then
            [("customer_phone", optStrVal s.customer_phone)]
          else [])
  [("customer_name", PVal.leaf (optStrVal s.customer_name)),
   ("customer_email", PVal.leaf (optStrVal s.customer_email)),
   ("customer_phone", PVal.leaf (optStrVal s.customer_phone)),
   ("service_id", PVal.leaf (optNatVal s.service_id)),
   ("source", PVal.leaf (SVal.vStr "TELEGRAM")),
   ("specifications", PVal.dict specifications)]
  ++ (match s.delivery_needed with
      | none => []
      | some b =>
        ("delivery_needed", PVal.leaf (SVal.vStr (if b then "true" else "false")))
          :: (if truthyOpt s.delivery_details then
                [("delivery_details", PVal.leaf (optStrVal s.delivery_details))]
              else []))
  ++ [("customer_contact", PVal.leaf (optStrVal s.customer_email))]

/-- The session exhibiting the phone divergence: a phone is set, so the
code copies `customer_phone` into the specifications dict. -/

def c1PhoneSession : OrderSession :=
  { user_id := 7, step := OrderStep.confirmation, service_id := some 1,
    service_name := some "3D print", customer_name := some "Jane Doe",
    customer_email := some "jane@x.com",
    customer_phone := some "+79001234567",
    files := [{ filename := "model.stl", size := some 2097152,
                telegram_file_id := "tg1", upload_result := "ref" }],
    specifications :=
      [("material", "pla"), ("quality", "standard"), ("infill", "30")] }

/-- The session exhibiting the delivery-details divergence: pickup was
chosen (`delivery_needed = False`) but details are populated. -/

def c1PickupDetailsSession : OrderSession :=
  { user_id := 7, step := OrderStep.confirmation, service_id := some 1,
    customer_name := some "Jane Doe", customer_email := some "jane@x.com",
    files := [{ filename := "model.stl", size := some 2097152,
                telegram_file_id := "tg1", upload_result := "ref" }],
    specifications := [("material", "pla")],
    delivery_needed := some false,
    delivery_details := some "Pickup point 5" }

/-- The contact-step session used by the C10 witness. -/

def c10DemoSession : OrderSession :=
  { user_id := 1, step := OrderStep.contact_info,
    customer_name := some "Jane Doe" }

/-! ## Claim C3 — the CONFIRMATION invariant -/

/-- The §3 invariant at `CONFIRMATION`: contacts collected and valid,
files present, the three specification keys present, and a consistent
delivery choice. -/

def ConfirmationInvariant (s : OrderSession) : Prop :=
  s.customer_name ≠ none
    ∧ (∃ e, s.customer_email = some e ∧ validate_email e = true)
    ∧ s.files ≠ []
    ∧ dictHasKey s.specifications "material" = true
    ∧ dictHasKey s.specifications "quality" = true
    ∧ dictHasKey s.specifications "infill" = true
    ∧ s.delivery_needed ≠ none
    ∧ (s.delivery_needed = some false ∨ s.delivery_details ≠ none)

/-- The inductive invariant of the forward workflow: what each step
guarantees about the data collected so far. -/

structure SessionInv (s : OrderSession) : Prop where
  email_ok : ∀ e, s.customer_email = some e →
    validate_email e = true ∧ e ≠ ""
  contact_at_later :
    (s.step = OrderStep.file_upload ∨ s.step = OrderStep.specifications
      ∨ s.step = OrderStep.delivery ∨ s.step = OrderStep.confirmation) →
    truthyOpt s.customer_name = true ∧ truthyOpt s.customer_email = true
  contact_of_files :
    s.files ≠ [] →
    truthyOpt s.customer_name = true ∧ truthyOpt s.customer_email = true
  files_at_later :
    (s.step = OrderStep.specifications ∨ s.step = OrderStep.delivery
      ∨ s.step = OrderStep.confirmation) → s.files ≠ []
  specs_at_later :
    (s.step = OrderStep.delivery ∨ s.step = OrderStep.confirmation) →
    dictHasKey s.specifications "material" = true
      ∧ dictHasKey s.specifications "quality" = true
      ∧ dictHasKey s.specifications "infill" = true
  delivery_at_conf :
    s.step = OrderStep.confirmation →
    s.delivery_needed ≠ none
      ∧ (s.delivery_needed = some false ∨ s.delivery_details ≠ none)

/-- The uploaded document of the happy-path scenario. -/

def stlDoc : TgDocument :=
  { file_name := some "model.stl", file_size := some 2097152,
    file_id := "tg2", mime_type := "model/stl" }

/-- The session produced by the §8 happy path: service 1, name, email,
phone skipped, `model.stl` uploaded, continue, pla/standard/30, pickup. -/

def forwardDemoSession : OrderSession :=
  handle_delivery_pickup
    (handle_infill_selection
      (handle_quality_selection
        (handle_material_selection
          (continue_with_files
            ((handle_file_upload
              (skip_phone_step
                (dispatchText
                  (dispatchText
                    (handle_service_selection (start_order 1) 1
                      "3D print" true)
                    "Jane Doe")
                  "jane@x.com"))
              (some stlDoc) true "stored/1").1))
          "pla")
        "standard")
      "30")

example : validate_phone "" = true := by decide

example : validate_phone "+7 900 123-45-67" = true := by decide

example : validate_phone "123" = false := by decide

example : validate_name "Jane Doe" = true := by decide

example : validate_name "J" = false := by decide

example : validate_name "Jane2" = false := by decide

example : validate_email "user@example.com" = true := by decide

example : validate_email "user@" = false := by decide

example : validate_email "@example.com" = false := by decide

example : validate_email "" = false := by decide

/-! ## List and character lemmas -/

theorem takeWhile_dropWhile_split {p : Char → Bool} (l : List Char)
    (x : Char) (r : List Char) (hl : ∀ c ∈ l, p c = true) (hx : p x = false) :
    (l ++ x :: r).takeWhile p = l ∧ (l ++ x :: r).dropWhile p = x :: r := by
  induction l with
  | nil => simp [List.takeWhile_cons, List.dropWhile_cons, hx]
  | cons a as ih =>
    have ha : p a = true := hl a (by simp)
    have h2 := ih (fun c hc => hl c (by simp [hc]))
    simp [List.takeWhile_cons, List.dropWhile_cons, ha, h2.1, h2.2]

theorem dropWhile_head_false {p : Char → Bool} (cs : List Char) (x : Char)
    (r : List Char) (h : cs.dropWhile p = x :: r) : p x = false := by
  induction cs with
  | nil => simp [List.dropWhile] at h
  | cons a as ih =>
    by_cases ha : p a = true
    · rw [List.dropWhile_cons, if_pos ha] at h
      exact ih h
    · rw [List.dropWhile_cons, if_neg ha] at h
      cases h
      exact Bool.eq_false_iff.mpr ha

theorem dropWhile_eq_self_of_none {p : Char → Bool} (cs : List Char)
    (h : ∀ c ∈ cs, p c = false) : cs.dropWhile p = cs := by
  cases cs with
  | nil => rfl
  | cons a as => rw [List.dropWhile_cons, if_neg (by simp [h a (by simp)])]

theorem pyStripL_eq_self_of_no_ws (cs : List Char)
    (h : ∀ c ∈ cs, isPyWs c = false) : pyStripL cs = cs := by
  unfold pyStripL
  rw [dropWhile_eq_self_of_none cs h,
      dropWhile_eq_self_of_none cs.reverse (fun c hc => h c (List.mem_reverse.mp hc)),
      List.reverse_reverse]

theorem emailMatch_iff (cs : List Char) :
    emailMatch cs = true ↔ EmailShape cs := by
  constructor
  · intro h
    unfold emailMatch at h
    split at h
    · exact absurd h (by simp)
    case _ hd rest heq1 =>
      have hAt : hd = '@' := by
        have := dropWhile_head_false cs hd rest heq1
        simpa using this
      subst hAt
      split at h
      · exact absurd h (by simp)
      case _ hd2 dRev heq2 =>
        have hDot : hd2 = '.' := by
          have := dropWhile_head_false rest.reverse hd2 dRev heq2
          simpa using this
        subst hDot
        simp only [Bool.and_eq_true, decide_eq_true_eq, List.all_eq_true] at h
        obtain ⟨⟨⟨⟨⟨hl, hlc⟩, hd⟩, hdc⟩, ht2⟩, htc⟩ := h
        refine ⟨cs.takeWhile (fun c => !(c = '@' : Bool)), dRev.reverse,
          (rest.reverse.takeWhile (fun c => !(c = '.' : Bool))).reverse,
          ?_, hl, hlc, by simpa using hd, ?_, by simpa using ht2,
          fun c hc => htc c (List.mem_reverse.mp hc)⟩
        · have hsplit1 := List.takeWhile_append_dropWhile
            (p := fun c => !(c = '@' : Bool)) (l := cs)
          rw [heq1] at hsplit1
          have hsplit2 := List.takeWhile_append_dropWhile
            (p := fun c => !(c = '.' : Bool)) (l := rest.reverse)
          rw [heq2] at hsplit2
          have hrest : rest =
              dRev.reverse ++ '.' ::
                (rest.reverse.takeWhile (fun c => !(c = '.' : Bool))).reverse := by
            have := congrArg List.reverse hsplit2
            simpa [List.reverse_append] using this.symm
          rw [← hrest]
          exact hsplit1.symm
        · intro c hc
          exact hdc c (List.mem_reverse.mp hc)
  · rintro ⟨l, d, t, rfl, hl, hlc, hd, hdc, ht2, htc⟩
    have hsplit1 := takeWhile_dropWhile_split (p := fun c => !(c = '@' : Bool))
      l '@' (d ++ '.' :: t)
      (fun c hc => by
        have := hlc c hc
        have hne : c ≠ '@' := by
          intro hEq; subst hEq; simp [isLocalChar] at this
        simp [hne])
      (by simp)
    have hsplit2 := takeWhile_dropWhile_split (p := fun c => !(c = '.' : Bool))
      t.reverse '.' d.reverse
      (fun c hc => by
        have := htc c (List.mem_reverse.mp hc)
        have hne : c ≠ '.' := by
          intro hEq; subst hEq; simp [Char.isAlpha, Char.isUpper, Char.isLower] at this
        simp [hne])
      (by simp)
    have hrev : (d ++ '.' :: t).reverse = t.reverse ++ '.' :: d.reverse := by
      simp [List.reverse_append]
    unfold emailMatch
    rw [hsplit1.2]
    simp only []
    rw [hrev, hsplit2.2, hsplit1.1, hsplit2.1]
    simp only [Bool.and_eq_true, decide_eq_true_eq, List.all_eq_true]
    refine ⟨⟨⟨⟨⟨hl, hlc⟩, by simpa using hd⟩,
      fun c hc => hdc c (List.mem_reverse.mp hc)⟩, by simpa using ht2⟩,
      fun c hc => htc c (List.mem_reverse.mp hc)⟩

/-! ## `Char.toLower` lemmas -/

theorem char_toNat_ofNat (n : Nat) (h : n < 55296) :
    (Char.ofNat n).toNat = n := by
  unfold Char.ofNat
  rw [dif_pos (Or.inl h)]
  rfl

theorem toLower_of_not_upper (c : Char)
    (h : ¬ (65 ≤ c.toNat ∧ c.toNat ≤ 90)) : Char.toLower c = c := by
  unfold Char.toLower
  rw [if_neg (by omega)]

theorem toLower_toNat_of_upper (c : Char)
    (h : 65 ≤ c.toNat ∧ c.toNat ≤ 90) :
    (Char.toLower c).toNat = c.toNat + 32 := by
  unfold Char.toLower
  rw [if_pos (by omega)]
  exact char_toNat_ofNat _ (by omega)

theorem isAlpha_iff_toNat (c : Char) :
    c.isAlpha = true ↔
      (65 ≤ c.toNat ∧ c.toNat ≤ 90) ∨ (97 ≤ c.toNat ∧ c.toNat ≤ 122) := by
  have hval : c.toNat = c.val.toNat := rfl
  simp only [Char.isAlpha, Char.isUpper, Char.isLower, Bool.or_eq_true,
    Bool.and_eq_true, decide_eq_true_eq]
  constructor
  · rintro (⟨h1, h2⟩ | ⟨h1, h2⟩)
    · left
      constructor <;> [exact h1; exact h2]
    · right
      constructor <;> [exact h1; exact h2]
  · rintro (⟨h1, h2⟩ | ⟨h1, h2⟩)
    · exact Or.inl ⟨h1, h2⟩
    · exact Or.inr ⟨h1, h2⟩

theorem toLower_isAlpha (c : Char) (h : c.isAlpha = true) :
    (Char.toLower c).isAlpha = true := by
  rcases (isAlpha_iff_toNat c).mp h with hu | hl
  · rw [isAlpha_iff_toNat, toLower_toNat_of_upper c hu]
    omega
  · rw [toLower_of_not_upper c (by omega)]
    exact h

theorem toLower_eq_self_of_isDigit (c : Char) (h : c.isDigit = true) :
    Char.toLower c = c := by
  have : 48 ≤ c.toNat ∧ c.toNat ≤ 57 := by
    simpa [Char.isDigit, Char.toNat] using h
  exact toLower_of_not_upper c (by omega)

theorem toLower_isLocalChar (c : Char) (h : isLocalChar c = true) :
    isLocalChar (Char.toLower c) = true := by
  simp only [isLocalChar, Bool.or_eq_true, decide_eq_true_eq] at h ⊢
  rcases h with ((((((h | h) | h) | h) | h) | h) | h)
  · exact Or.inl (Or.inl (Or.inl (Or.inl (Or.inl (Or.inl (toLower_isAlpha c h))))))
  · rw [toLower_eq_self_of_isDigit c h]
    exact Or.inl (Or.inl (Or.inl (Or.inl (Or.inl (Or.inr h)))))
  all_goals subst h
  · exact Or.inl (Or.inl (Or.inl (Or.inl (Or.inr (by decide)))))
  · exact Or.inl (Or.inl (Or.inl (Or.inr (by decide))))
  · exact Or.inl (Or.inl (Or.inr (by decide)))
  · exact Or.inl (Or.inr (by decide))
  · exact Or.inr (by decide)

theorem toLower_isDomainChar (c : Char) (h : isDomainChar c = true) :
    isDomainChar (Char.toLower c) = true := by
  simp only [isDomainChar, Bool.or_eq_true, decide_eq_true_eq] at h ⊢
  rcases h with (((h | h) | h) | h)
  · exact Or.inl (Or.inl (Or.inl (toLower_isAlpha c h)))
  · rw [toLower_eq_self_of_isDigit c h]
    exact Or.inl (Or.inl (Or.inr h))
  all_goals subst h
  · exact Or.inl (Or.inr (by decide))
  · exact Or.inr (by decide)

theorem emailShape_map_toLower (cs : List Char) (h : EmailShape cs) :
    EmailShape (cs.map Char.toLower) := by
  obtain ⟨l, d, t, rfl, hl, hlc, hd, hdc, ht2, htc⟩ := h
  refine ⟨l.map Char.toLower, d.map Char.toLower, t.map Char.toLower, ?_,
    by simpa using hl, ?_, by simpa using hd, ?_, by simpa using ht2, ?_⟩
  · simp [List.map_append]
  · intro c hc
    obtain ⟨a, ha, rfl⟩ := List.mem_map.mp hc
    exact toLower_isLocalChar a (hlc a ha)
  · intro c hc
    obtain ⟨a, ha, rfl⟩ := List.mem_map.mp hc
    exact toLower_isDomainChar a (hdc a ha)
  · intro c hc
    obtain ⟨a, ha, rfl⟩ := List.mem_map.mp hc
    exact toLower_isAlpha a (htc a ha)

theorem isLocalChar_not_ws (c : Char) (h : isLocalChar c = true) :
    isPyWs c = false := by
  simp only [isLocalChar, Bool.or_eq_true, decide_eq_true_eq] at h
  simp only [isPyWs, Bool.or_eq_true, decide_eq_true_eq]
  rcases h with ((((((h | h) | h) | h) | h) | h) | h)
  · rcases (isAlpha_iff_toNat c).mp h with hr | hr <;>
      · simp only [Bool.or_eq_false_iff, decide_eq_false_iff_not]
        refine ⟨⟨⟨⟨⟨?_, ?_⟩, ?_⟩, ?_⟩, ?_⟩, ?_⟩ <;>
          (intro hEq; subst hEq; revert hr; decide)
  · have : 48 ≤ c.toNat ∧ c.toNat ≤ 57 := by
      simpa [Char.isDigit, Char.toNat] using h
    simp only [Bool.or_eq_false_iff, decide_eq_false_iff_not]
    refine ⟨⟨⟨⟨⟨?_, ?_⟩, ?_⟩, ?_⟩, ?_⟩, ?_⟩ <;>
      (intro hEq; subst hEq; revert this; decide)
  all_goals subst h; decide

theorem isDomainChar_not_ws (c : Char) (h : isDomainChar c = true) :
    isPyWs c = false := by
  simp only [isDomainChar, Bool.or_eq_true, decide_eq_true_eq] at h
  rcases h with (((h | h) | h) | h)
  · exact isLocalChar_not_ws c (by simp [isLocalChar, h])
  · exact isLocalChar_not_ws c (by simp [isLocalChar, h])
  all_goals subst h; decide

theorem emailShape_no_ws (cs : List Char) (h : EmailShape cs) :
    ∀ c ∈ cs, isPyWs c = false := by
  obtain ⟨l, d, t, rfl, hl, hlc, hd, hdc, ht2, htc⟩ := h
  intro c hc
  rcases List.mem_append.mp hc with hc | hc
  · exact isLocalChar_not_ws c (hlc c hc)
  · rcases List.mem_cons.mp hc with rfl | hc
    · decide
    · rcases List.mem_append.mp hc with hc | hc
      · exact isDomainChar_not_ws c (hdc c hc)
      · rcases List.mem_cons.mp hc with rfl | hc
        · decide
        · have := htc c hc
          rcases (isAlpha_iff_toNat c).mp this with hr | hr <;>
            · simp only [isPyWs, Bool.or_eq_false_iff, decide_eq_false_iff_not]
              refine ⟨⟨⟨⟨⟨?_, ?_⟩, ?_⟩, ?_⟩, ?_⟩, ?_⟩ <;>
                (intro hEq; subst hEq; revert hr; decide)

theorem string_mk_ne_empty (cs : List Char) (h : cs ≠ []) :
    (⟨cs⟩ : String) ≠ "" := by
  intro hEq
  exact h (congrArg String.data hEq)

/-- The email stored by `handle_contact_email` — `email.strip().lower()` of
a string that passed `_validate_email` — is itself non-empty and passes
`_validate_email`. -/

theorem validate_email_stored (e : String) (h : validate_email e = true) :
    validate_email (pyLower (pyStrip e)) = true
      ∧ pyLower (pyStrip e) ≠ "" := by
  unfold validate_email at h
  by_cases he : e = ""
  · rw [if_pos he] at h
    exact absurd h (by simp)
  · rw [if_neg he] at h
    have shape := (emailMatch_iff _).mp h
    have shape2 := emailShape_map_toLower _ shape
    have hmapne : (pyStripL e.toList).map Char.toLower ≠ [] := by
      obtain ⟨l, d, t, hEq, hl, -⟩ := shape
      rw [hEq]
      simp
    have hlistEq : (pyLower (pyStrip e)).toList
        = (pyStripL e.toList).map Char.toLower := rfl
    have hne : pyLower (pyStrip e) ≠ "" := string_mk_ne_empty _ hmapne
    refine ⟨?_, hne⟩
    unfold validate_email
    rw [if_neg hne, hlistEq,
      pyStripL_eq_self_of_no_ws _ (emailShape_no_ws _ shape2)]
    exact (emailMatch_iff _).mpr shape2

/-- A name accepted by `_validate_name` strips to a non-empty string, so
the stored `customer_name` is truthy. -/

theorem validate_name_stored (n : String) (h : validate_name n = true) :
    pyStrip n ≠ "" := by
  unfold validate_name at h
  by_cases h2 : (pyStripL n.toList).length < 2
  · rw [if_pos h2] at h
    exact absurd h (by simp)
  · apply string_mk_ne_empty
    intro hNil
    rw [hNil] at h2
    simp at h2

/-! ## Dict operation lemmas -/

theorem lookup_cons_self {α : Type} (k : String) (v : α) (d : List (String × α)) :
    ((k, v) :: d).lookup k = some v := by
  simp [List.lookup]

theorem lookup_cons_ne {α : Type} (k a1 : String) (v : α) (d : List (String × α))
    (h : k ≠ a1) : ((a1, v) :: d).lookup k = d.lookup k := by
  simp [List.lookup, beq_eq_false_iff_ne.mpr h]

theorem map_set_lookup_ne {α : Type} (d : List (String × α)) (k k2 : String)
    (v : α) (h : k2 ≠ k) :
    (d.map (fun p => if p.1 = k then (k, v) else p)).lookup k2 = d.lookup k2 := by
  induction d with
  | nil => rfl
  | cons a d ih =>
    obtain ⟨a1, a2⟩ := a
    by_cases ha : a1 = k
    · have hif : (if (a1, a2).1 = k then (k, v) else (a1, a2)) = (k, v) := by
        simp [ha]
      rw [List.map_cons, hif, lookup_cons_ne k2 k v _ h,
        lookup_cons_ne k2 a1 a2 _ (fun hEq => h (hEq.trans ha)), ih]
    · have hif : (if (a1, a2).1 = k then (k, v) else (a1, a2)) = (a1, a2) := by
        simp [ha]
      rw [List.map_cons, hif]
      by_cases hk2 : k2 = a1
      · subst hk2
        rw [lookup_cons_self, lookup_cons_self]
      · rw [lookup_cons_ne _ _ _ _ hk2, lookup_cons_ne _ _ _ _ hk2, ih]

theorem map_set_lookup_self {α : Type} (d : List (String × α)) (k : String)
    (v : α) (h : dictHasKey d k = true) :
    (d.map (fun p => if p.1 = k then (k, v) else p)).lookup k = some v := by
  induction d with
  | nil => simp [dictHasKey] at h
  | cons a d ih =>
    obtain ⟨a1, a2⟩ := a
    by_cases ha : a1 = k
    · have hif : (if (a1, a2).1 = k then (k, v) else (a1, a2)) = (k, v) := by
        simp [ha]
      rw [List.map_cons, hif, lookup_cons_self]
    · have hif : (if (a1, a2).1 = k then (k, v) else (a1, a2)) = (a1, a2) := by
        simp [ha]
      rw [List.map_cons, hif, lookup_cons_ne _ _ _ _ (fun hEq => ha hEq.symm)]
      apply ih
      simp only [dictHasKey, List.any_cons, Bool.or_eq_true,
        decide_eq_true_eq] at h
      simpa [dictHasKey] using h.resolve_left ha

theorem map_set_hasKey_ne {α : Type} (d : List (String × α)) (k k2 : String)
    (v : α) (h : k2 ≠ k) :
    dictHasKey (d.map (fun p => if p.1 = k then (k, v) else p)) k2
      = dictHasKey d k2 := by
  induction d with
  | nil => rfl
  | cons a d ih =>
    obtain ⟨a1, a2⟩ := a
    by_cases ha : a1 = k
    · have hif : (if (a1, a2).1 = k then (k, v) else (a1, a2)) = (k, v) := by
        simp [ha]
      rw [List.map_cons, hif]
      simp only [dictHasKey, List.any_cons] at ih ⊢
      rw [decide_eq_false_iff_not.mpr (fun hEq => h hEq.symm),
        decide_eq_false_iff_not.mpr
          (fun hEq : a1 = k2 => h ((hEq.symm.trans ha).symm.symm)), ih]
    · have hif : (if (a1, a2).1 = k then (k, v) else (a1, a2)) = (a1, a2) := by
        simp [ha]
      rw [List.map_cons, hif]
      simp only [dictHasKey, List.any_cons] at ih ⊢
      rw [ih]

theorem map_set_hasKey_self {α : Type} (d : List (String × α)) (k : String)
    (v : α) (h : dictHasKey d k = true) :
    dictHasKey (d.map (fun p => if p.1 = k then (k, v) else p)) k = true := by
  induction d with
  | nil => simp [dictHasKey] at h
  | cons a d ih =>
    obtain ⟨a1, a2⟩ := a
    by_cases ha : a1 = k
    · have hif : (if (a1, a2).1 = k then (k, v) else (a1, a2)) = (k, v) := by
        simp [ha]
      rw [List.map_cons, hif]
      simp [dictHasKey]
    · have hif : (if (a1, a2).1 = k then (k, v) else (a1, a2)) = (a1, a2) := by
        simp [ha]
      rw [List.map_cons, hif]
      simp only [dictHasKey, List.any_cons, Bool.or_eq_true,
        decide_eq_true_eq] at h ⊢
      right
      have h2 : dictHasKey d k = true := by
        simpa [dictHasKey] using h.resolve_left ha
      simpa [dictHasKey] using ih h2

theorem append_single_lookup_ne {α : Type} (d : List (String × α))
    (k k2 : String) (v : α) (h : k2 ≠ k) :
    (d ++ [(k, v)]).lookup k2 = d.lookup k2 := by
  induction d with
  | nil => simp [List.lookup, beq_eq_false_iff_ne.mpr h]
  | cons a d ih =>
    obtain ⟨a1, a2⟩ := a
    by_cases hk2 : k2 = a1
    · subst hk2
      rw [List.cons_append, lookup_cons_self, lookup_cons_self]
    · rw [List.cons_append, lookup_cons_ne _ _ _ _ hk2,
        lookup_cons_ne _ _ _ _ hk2, ih]

theorem append_single_lookup_self {α : Type} (d : List (String × α))
    (k : String) (v : α) (h : dictHasKey d k = false) :
    (d ++ [(k, v)]).lookup k = some v := by
  induction d with
  | nil => simp [List.lookup]
  | cons a d ih =>
    obtain ⟨a1, a2⟩ := a
    simp only [dictHasKey, List.any_cons, Bool.or_eq_false_iff,
      decide_eq_false_iff_not] at h
    rw [List.cons_append, lookup_cons_ne _ _ _ _ (fun hEq => h.1 hEq.symm)]
    exact ih (by simpa [dictHasKey] using h.2)

theorem lookup_dictSet_self {α : Type} (d : List (String × α)) (k : String)
    (v : α) : (dictSet d k v).lookup k = some v := by
  unfold dictSet
  split
  case isTrue h => exact map_set_lookup_self d k v h
  case isFalse h =>
    exact append_single_lookup_self d k v (Bool.eq_false_iff.mpr h)

theorem lookup_dictSet_ne {α : Type} (d : List (String × α)) (k k2 : String)
    (v : α) (h : k2 ≠ k) : (dictSet d k v).lookup k2 = d.lookup k2 := by
  unfold dictSet
  split
  · exact map_set_lookup_ne d k k2 v h
  · exact append_single_lookup_ne d k k2 v h

theorem dictHasKey_append {α : Type} (d e : List (String × α)) (k : String) :
    dictHasKey (d ++ e) k = (dictHasKey d k || dictHasKey e k) := by
  simp [dictHasKey, List.any_append]

theorem dictHasKey_single {α : Type} (k k2 : String) (v : α) :
    dictHasKey [(k, v)] k2 = decide (k = k2) := by
  simp [dictHasKey]

theorem dictHasKey_dictSet_self {α : Type} (d : List (String × α))
    (k : String) (v : α) : dictHasKey (dictSet d k v) k = true := by
  unfold dictSet
  split
  case isTrue h => exact map_set_hasKey_self d k v h
  case isFalse h =>
    rw [dictHasKey_append, dictHasKey_single]
    simp

theorem dictHasKey_dictSet_ne {α : Type} (d : List (String × α))
    (k k2 : String) (v : α) (h : k2 ≠ k) :
    dictHasKey (dictSet d k v) k2 = dictHasKey d k2 := by
  unfold dictSet
  split
  · exact map_set_hasKey_ne d k k2 v h
  · rw [dictHasKey_append, dictHasKey_single,
      decide_eq_false_iff_not.mpr (fun hEq => h hEq.symm), Bool.or_false]

theorem dictHasKey_dictPop_self {α : Type} (d : List (String × α))
    (k : String) : dictHasKey (dictPop d k) k = false := by
  induction d with
  | nil => rfl
  | cons a d ih =>
    obtain ⟨a1, a2⟩ := a
    by_cases ha : a1 = k
    · simpa [dictPop, List.filter_cons, ha] using ih
    · simp [dictPop, dictHasKey, List.filter_cons, ha] at ih ⊢

theorem dictHasKey_dictPop_ne {α : Type} (d : List (String × α))
    (k k2 : String) (h : k2 ≠ k) :
    dictHasKey (dictPop d k) k2 = dictHasKey d k2 := by
  induction d with
  | nil => rfl
  | cons a d ih =>
    obtain ⟨a1, a2⟩ := a
    by_cases ha : a1 = k
    · have hne : (decide (a1 = k2)) = false :=
        decide_eq_false_iff_not.mpr (fun hEq => h (ha.symm.trans hEq).symm)
      simp only [dictPop, List.filter_cons]
      rw [if_neg (by simp [ha])]
      simp only [dictHasKey, List.any_cons, hne, Bool.false_or]
      simpa [dictPop, dictHasKey] using ih
    · simp only [dictPop, List.filter_cons]
      rw [if_pos (by simp [ha])]
      simp only [dictHasKey, List.any_cons]
      have := ih
      simp only [dictPop, dictHasKey] at this
      rw [this]

theorem lookup_dictPop_ne {α : Type} (d : List (String × α)) (k k2 : String)
    (h : k2 ≠ k) : (dictPop d k).lookup k2 = d.lookup k2 := by
  induction d with
  | nil => rfl
  | cons a d ih =>
    obtain ⟨a1, a2⟩ := a
    by_cases ha : a1 = k
    · simp only [dictPop, List.filter_cons]
      rw [if_neg (by simp [ha])]
      rw [lookup_cons_ne _ _ _ _ (fun hEq => h (hEq.trans ha))]
      simpa [dictPop] using ih
    · simp only [dictPop, List.filter_cons]
      rw [if_pos (by simp [ha])]
      by_cases hk2 : k2 = a1
      · subst hk2
        rw [lookup_cons_self, lookup_cons_self]
      · rw [lookup_cons_ne _ _ _ _ hk2, lookup_cons_ne _ _ _ _ hk2]
        simpa [dictPop] using ih

theorem dictSet_of_absent {α : Type} (d : List (String × α)) (k : String)
    (v : α) (h : dictHasKey d k = false) : dictSet d k v = d ++ [(k, v)] := by
  unfold dictSet
  rw [if_neg (by simp only [dictHasKey] at h; simp [h])]

/-- C7.  `is_complete()` is true exactly when `customer_name`,
`customer_email` and `service_id` are non-null and `files` is non-empty,
and its value does not depend on `specifications`, `delivery_needed` or
`delivery_details`. -/

theorem c7_is_complete_iff :
    ∀ s : OrderSession,
      (s.is_complete = true ↔
        (s.customer_name ≠ none ∧ s.customer_email ≠ none
          ∧ s.service_id ≠ none ∧ s.files ≠ []))
      ∧ (∀ (sp : List (String × String)) (dn : Option Bool)
            (dd : Option String),
          OrderSession.is_complete
            { s with specifications := sp, delivery_needed := dn,
                     delivery_details := dd }
            = s.is_complete) := by
  intro s
  constructor
  · simp only [OrderSession.is_complete, Bool.and_eq_true, decide_eq_true_eq,
      Option.isSome_iff_ne_none, List.length_pos, ne_eq]
    tauto
  · intro sp dn dd
    rfl

/-- C9.  `clear_session(user_id)` returns true iff a session existed,
removes it, and a second consecutive call returns false and leaves the
store untouched. -/

theorem c9_clear_session_idempotent :
    ∀ (st : SessionStore) (uid : Nat),
      (clear_session st uid).2 = storeHas st uid
      ∧ storeHas (clear_session st uid).1 uid = false
      ∧ clear_session (clear_session st uid).1 uid
          = ((clear_session st uid).1, false) := by
  intro st uid
  by_cases h : storeHas st uid = true
  · have h2 : storeHas (clear_session st uid).1 uid = false := by
      unfold clear_session
      rw [if_pos h]
      unfold storeHas
      rw [Bool.eq_false_iff]
      intro hAny
      rw [List.any_eq_true] at hAny
      obtain ⟨p, hp, hpu⟩ := hAny
      rw [List.mem_filter] at hp
      have h3 := hp.2
      simp only [decide_eq_true_eq] at hpu
      simp only [decide_not, Bool.not_eq_true', decide_eq_false_iff_not] at h3
      exact h3 hpu
    refine ⟨?_, h2, ?_⟩
    · unfold clear_session
      rw [if_pos h, h]
    · unfold clear_session at h2 ⊢
      rw [if_pos h] at h2 ⊢
      simp only [decide_not] at h2 ⊢
      rw [if_neg (by simp [h2])]
  · have h0 : storeHas st uid = false := Bool.eq_false_iff.mpr h
    have h1 : clear_session st uid = (st, false) := by
      unfold clear_session
      rw [if_neg (by simp [h0])]
    refine ⟨by rw [h1, h0], by rw [h1]; exact h0, ?_⟩
    rw [h1]
    exact h1

theorem phoneCore_iff (d : Char) (ds : List Char) :
    phoneCore d ds = true ↔
      d.isDigit = true ∧ d ≠ '0' ∧ (∀ c ∈ ds, c.isDigit = true)
        ∧ 6 ≤ ds.length ∧ ds.length ≤ 14 := by
  simp only [phoneCore, Bool.and_eq_true, decide_eq_true_eq,
    List.all_eq_true]
  tauto

theorem phoneRegexMatch_iff (cs : List Char) :
    phoneRegexMatch cs = true ↔ PhoneShape cs := by
  cases cs with
  | nil =>
    simp only [phoneRegexMatch, PhoneShape]
    constructor
    · intro h
      exact absurd h (by simp)
    · rintro ⟨d, ds, (h | h), -⟩ <;> simp at h
  | cons c rest =>
    by_cases hc : c = '+'
    · subst hc
      cases rest with
      | nil =>
        simp only [phoneRegexMatch, if_true]
        simp only [PhoneShape]
        constructor
        · intro h
          exact absurd h (by simp)
        · rintro ⟨d, ds, (h | h), hdig, -⟩
          · rw [List.cons.injEq] at h
            rw [← h.1] at hdig
            exact absurd hdig (by simp)
          · simp at h
      | cons d ds =>
        simp only [phoneRegexMatch, if_true]
        simp only [phoneCore_iff, PhoneShape]
        constructor
        · intro ⟨h1, h2, h3, h4, h5⟩
          exact ⟨d, ds, Or.inr rfl, h1, h2, h3, h4, h5⟩
        · rintro ⟨d2, ds2, (h | h), hdig, hz, hall, h6, h14⟩
          · rw [List.cons.injEq] at h
            rw [← h.1] at hdig
            exact absurd hdig (by simp)
          · simp only [List.cons.injEq, true_and] at h
            obtain ⟨rfl, rfl⟩ := h
            exact ⟨hdig, hz, hall, h6, h14⟩
    · simp only [phoneRegexMatch, if_neg hc, phoneCore_iff, PhoneShape]
      constructor
      · intro ⟨h1, h2, h3, h4, h5⟩
        exact ⟨c, rest, Or.inl rfl, h1, h2, h3, h4, h5⟩
      · rintro ⟨d2, ds2, (h | h), hdig, hz, hall, h6, h14⟩
        · rw [List.cons.injEq] at h
          obtain ⟨rfl, rfl⟩ := h
          exact ⟨hdig, hz, hall, h6, h14⟩
        · rw [List.cons.injEq] at h
          exact absurd h.1 hc

/-- C4 (counterexample).  The claim accepts every string whose
digit-and-plus residue contains 7–15 digits; the code rejects
`"0123456"`, whose residue is exactly 7 digits, because the regex
requires the first digit to be 1–9. -/

theorem c4_counterexample :
    validate_phone "0123456" = false
      ∧ 7 ≤ ((phoneResidue "0123456").filter Char.isDigit).length
      ∧ ((phoneResidue "0123456").filter Char.isDigit).length ≤ 15 := by
  decide

/-- C4 (amended).  `validate_phone("")` is true,
`validate_phone("+7 900 123-45-67")` is true, `validate_phone("123")` is
false; and for every non-empty string the result is true iff the residue
kept by deleting every character other than digits and `+` consists of an
optional leading `+` followed by a digit 1–9 and 6–14 further digits
(7–15 digits in all, with no interior `+` and no leading zero). -/

theorem c4_validate_phone_amended :
    validate_phone "" = true
      ∧ validate_phone "+7 900 123-45-67" = true
      ∧ validate_phone "123" = false
      ∧ ∀ s : String, s ≠ "" →
          (validate_phone s = true ↔ PhoneShape (phoneResidue s)) := by
  refine ⟨by decide, by decide, by decide, ?_⟩
  intro s hs
  unfold validate_phone
  rw [if_neg hs]
  exact phoneRegexMatch_iff (phoneResidue s)

/-- C4 (witness): the amended characterization applied to the concrete
phone `"+7 900 123-45-67"`. -/

theorem c4_amended_witness :
    validate_phone "+7 900 123-45-67" = true :=
  (c4_validate_phone_amended.2.2.2 "+7 900 123-45-67" (by decide)).mpr
    ⟨'7', ['9', '0', '0', '1', '2', '3', '4', '5', '6', '7'],
      Or.inr (by decide), by decide, by decide, by decide, by decide,
      by decide⟩

theorem asciiNameChar_sub (c : Char) (h : asciiNameChar c = true) :
    isNameChar c = true := by
  simp only [asciiNameChar, Bool.or_eq_true, decide_eq_true_eq] at h
  simp only [isNameChar, Bool.or_eq_true, decide_eq_true_eq,
    Bool.and_eq_true, decide_eq_true_eq]
  rcases h with ((h | h) | h) | h
  · exact Or.inl (Or.inl (Or.inl (Or.inl (Or.inl (Or.inl (Or.inl h))))))
  · subst h
    exact Or.inl (Or.inr rfl)
  · subst h
    exact Or.inl (Or.inl (Or.inr (by decide)))
  · exact Or.inr h

theorem isNameChar_not_digit (c : Char) (h : c.isDigit = true) :
    isNameChar c = false := by
  have hdig : 48 ≤ c.toNat ∧ c.toNat ≤ 57 := by
    simpa [Char.isDigit, Char.toNat] using h
  rw [Bool.eq_false_iff]
  intro hname
  simp only [isNameChar, Bool.or_eq_true, decide_eq_true_eq,
    Bool.and_eq_true, decide_eq_true_eq] at hname
  rcases hname with ((((((halpha | hcyr) | hcyr) | hcyr) | hcyr) | hws) | hhy) | hap
  · rcases (isAlpha_iff_toNat c).mp halpha with hr | hr <;> omega
  · omega
  · omega
  · omega
  · omega
  · simp only [isPyWs, Bool.or_eq_true, decide_eq_true_eq] at hws
    rcases hws with ((((hws | hws) | hws) | hws) | hws) | hws <;>
      (subst hws; revert hdig; decide)
  · subst hhy
    revert hdig
    decide
  · omega

/-- C5 (counterexample).  The claim's characterization fails in both
directions: `"a\tb"` is accepted by the code although a tab is neither a
letter, a space, a hyphen nor an apostrophe; and `"éé"` — two letters of a
diacritic alphabet, trimmed length 2 — is rejected by the code, whose
character class has only ASCII and Cyrillic letters. -/

theorem c5_counterexample :
    (validate_name "a\tb" = true
      ∧ (pyStripL ("a\tb" : String).toList).all specNameChar = false)
    ∧ (validate_name "éé" = false
      ∧ 2 ≤ (pyStripL ("éé" : String).toList).length
      ∧ (pyStripL ("éé" : String).toList).length ≤ 50
      ∧ (pyStripL ("éé" : String).toList).all specNameChar = true) := by
  decide

/-- C5 (amended).  `validate_name(s)` is true iff, after trimming, the
length is 2–50 and every character is an ASCII letter, a Cyrillic letter
(`а-я`, `А-Я`, `ё`, `Ё`), a whitespace character, a hyphen or an
apostrophe.  In particular every trimmed string of length 2–50 over
`[A-Za-z\- ']` is accepted, any string whose trimmed form contains a digit
is rejected, and the empty string is rejected. -/

theorem c5_validate_name_amended :
    (∀ s : String, validate_name s = true ↔
        (2 ≤ (pyStripL s.toList).length ∧ (pyStripL s.toList).length ≤ 50
          ∧ ∀ c ∈ pyStripL s.toList, isNameChar c = true))
    ∧ (∀ s : String,
        2 ≤ (pyStripL s.toList).length → (pyStripL s.toList).length ≤ 50 →
        (∀ c ∈ pyStripL s.toList, asciiNameChar c = true) →
        validate_name s = true)
    ∧ (∀ (s : String) (c : Char), c ∈ pyStripL s.toList →
        c.isDigit = true → validate_name s = false)
    ∧ validate_name "" = false := by
  have hiff : ∀ s : String, validate_name s = true ↔
      (2 ≤ (pyStripL s.toList).length ∧ (pyStripL s.toList).length ≤ 50
        ∧ ∀ c ∈ pyStripL s.toList, isNameChar c = true) := by
    intro s
    simp only [validate_name]
    by_cases h1 : (pyStripL s.toList).length < 2
    · rw [if_pos h1]
      constructor
      · intro h
        exact absurd h (by simp)
      · rintro ⟨h2, -, -⟩
        omega
    · rw [if_neg h1]
      by_cases h2 : (pyStripL s.toList).length > 50
      · rw [if_pos h2]
        constructor
        · intro h
          exact absurd h (by simp)
        · rintro ⟨-, h50, -⟩
          omega
      · rw [if_neg h2, List.all_eq_true]
        constructor
        · intro h
          exact ⟨by omega, by omega, h⟩
        · rintro ⟨-, -, h⟩
          exact h
  refine ⟨hiff, ?_, ?_, by decide⟩
  · intro s hlo hhi hascii
    exact (hiff s).mpr
      ⟨hlo, hhi, fun c hc => asciiNameChar_sub c (hascii c hc)⟩
  · intro s c hc hdig
    rw [Bool.eq_false_iff]
    intro htrue
    have := ((hiff s).mp htrue).2.2 c hc
    rw [isNameChar_not_digit c hdig] at this
    exact absurd this (by simp)

/-- C5 (witness): the amended characterization applied to concrete names —
`"Jane Doe"` accepted through the ASCII case, `"Jane2"` rejected through
the digit case. -/

theorem c5_amended_witness :
    validate_name "Jane Doe" = true ∧ validate_name "Jane2" = false :=
  ⟨c5_validate_name_amended.2.1 "Jane Doe" (by decide) (by decide)
      (by decide),
   c5_validate_name_amended.2.2.1 "Jane2" '2' (by decide) (by decide)⟩

/-! ## Claim C6 — file upload gating -/

/-- C6.  At step `FILE_UPLOAD` a received file is appended to `files` only
when its extension is in the allow-list (case-insensitively) and any known
size is within the configured maximum; and a file with a disallowed
extension is rejected with the `invalidFormat` outcome, the session (its
`files` and its step included) unchanged and no external upload call made
(only the `uploaded`/`uploadFailed` outcomes ever reach the upload
call). -/

theorem c6_file_upload_gating :
    ∀ (s : OrderSession) (doc : Option TgDocument) (ok : Bool)
      (res : String),
      s.step = OrderStep.file_upload →
      ((handle_file_upload s doc ok res).1.files ≠ s.files →
        ∃ (f : TgDocument) (fname : String),
          doc = some f ∧ f.file_name = some fname
            ∧ fileFormatOk fname = true
            ∧ ∀ n, f.file_size = some n → n ≤ maxFileSize)
      ∧ (∀ (f : TgDocument) (fname : String),
          doc = some f → f.file_name = some fname → fname ≠ "" →
          fileFormatOk fname = false →
          handle_file_upload s doc ok res
            = (s, FileUploadOutcome.invalidFormat)) := by
  intro s doc ok res hstep
  unfold handle_file_upload
  rw [if_neg (by simp [hstep])]
  constructor
  · cases doc with
    | none =>
      intro hchanged
      exact absurd rfl hchanged
    | some f =>
      dsimp only
      cases hname : f.file_name with
      | none =>
        intro hchanged
        exact absurd rfl hchanged
      | some fname =>
        dsimp only
        by_cases hempty : fname = ""
        · rw [if_pos hempty]
          intro hchanged
          exact absurd rfl hchanged
        · rw [if_neg hempty]
          by_cases hfmt : fileFormatOk fname = true
          · rw [if_neg (by simp [hfmt])]
            intro hchanged
            refine ⟨f, fname, rfl, hname, hfmt, ?_⟩
            intro n hn
            rw [hn] at hchanged
            dsimp only at hchanged
            by_cases hbig : (decide (n ≠ 0) && decide (n > maxFileSize))
                = true
            · rw [if_pos hbig] at hchanged
              exact absurd rfl hchanged
            · simp only [Bool.and_eq_true, decide_eq_true_eq,
                not_and] at hbig
              by_cases hz : n = 0
              · omega
              · have := hbig (by exact hz)
                omega
          · rw [if_pos (by simp [Bool.eq_false_iff.mpr hfmt])]
            intro hchanged
            exact absurd rfl hchanged
  · intro f fname hdoc hname hempty hfmt
    subst hdoc
    dsimp only
    rw [hname]
    dsimp only
    rw [if_neg hempty, if_pos (by simp [hfmt])]

/-- C6 (witness): the disallowed file `design.txt` is rejected on the
concrete session — `files` stays empty, the step stays `FILE_UPLOAD`, and
the outcome is `invalidFormat` (no upload call). -/

theorem c6_witness :
    handle_file_upload demoUploadSession
        (some { file_name := some "design.txt", file_size := some 2097152,
                file_id := "tg1", mime_type := "text/plain" }) true "ref"
      = (demoUploadSession, FileUploadOutcome.invalidFormat)
    ∧ demoUploadSession.files = [] :=
  ⟨(c6_file_upload_gating demoUploadSession
      (some { file_name := some "design.txt", file_size := some 2097152,
              file_id := "tg1", mime_type := "text/plain" }) true "ref"
      (by decide)).2
    { file_name := some "design.txt", file_size := some 2097152,
      file_id := "tg1", mime_type := "text/plain" } "design.txt"
    rfl rfl (by decide) (by decide),
   rfl⟩

/-! ## Claim C2 — pre-submission validation short-circuits -/

/-- C2.  For a session at step `CONFIRMATION`, any failure of
`_validate_order_data` makes `confirm_order` return exactly that
field-specific message, leaves the store (hence the session, its step and
all its data) unchanged, and makes no external order-creation call. -/

theorem c2_validation_short_circuit :
    ∀ (st : SessionStore) (uid : Nat) (apiOk : Bool) (s : OrderSession)
      (msg : String),
      get_session st uid = some s →
      s.step = OrderStep.confirmation →
      validate_order_data s = some msg →
      confirm_order st uid apiOk
        = (ConfirmOutcome.validationError msg, st, false) := by
  intro st uid apiOk s msg hget hstep hval
  unfold confirm_order
  rw [hget]
  dsimp only
  rw [if_neg (by simp [hstep]), hval]

/-- C2 (witness): confirming with `specifications` missing `infill` is
blocked with the message naming the missing parameter, the store is
unchanged and no external call is made. -/

theorem c2_witness :
    confirm_order [(1, missingInfillSession)] 1 true
      = (ConfirmOutcome.validationError ("Не указан параметр: " ++ "infill"),
         [(1, missingInfillSession)], false) :=
  c2_validation_short_circuit [(1, missingInfillSession)] 1 true
    missingInfillSession ("Не указан параметр: " ++ "infill")
    rfl rfl (by decide)

/-- C8 (counterexample).  After going back to material selection and
re-selecting a material, `specifications` is `{material: pla}` — not `{}`
as the §8 property states; and on a session holding quality/infill but no
material, `back_to_quality` removes nothing, so `infill` survives. -/

theorem c8_counterexample :
    ((handle_material_selection (back_to_material c8FullSpecSession)
          "pla").specifications = [("material", "pla")]
      ∧ (handle_material_selection (back_to_material c8FullSpecSession)
          "pla").specifications ≠ [])
    ∧ (back_to_quality c8NoMaterialSession).specifications.lookup "infill"
        = some "30" := by
  decide

/-- C8 (amended).  `back_to_material` removes quality and infill; after
re-selecting a material the specifications contain no quality or infill
key but do contain the material key (so the map is `{material: m}`, not
`{}`, when those were the only keys).  `back_to_quality` removes only
infill and keeps material and quality, provided a material is set (with no
material set it removes nothing).  Every other backward transition resets
only the step. -/

theorem c8_backward_navigation_amended :
    (∀ s : OrderSession,
        dictHasKey (back_to_material s).specifications "quality" = false
        ∧ dictHasKey (back_to_material s).specifications "infill" = false)
    ∧ (∀ (s : OrderSession) (m : String),
        dictHasKey (handle_material_selection (back_to_material s) m
            ).specifications "quality" = false
        ∧ dictHasKey (handle_material_selection (back_to_material s) m
            ).specifications "infill" = false
        ∧ (s.step = OrderStep.specifications →
            (handle_material_selection (back_to_material s) m
              ).specifications.lookup "material" = some m))
    ∧ (∀ (s : OrderSession) (m : String),
        s.specifications.lookup "material" = some m → m ≠ "" →
        dictHasKey (back_to_quality s).specifications "infill" = false
        ∧ (back_to_quality s).specifications.lookup "material" = some m
        ∧ (back_to_quality s).specifications.lookup "quality"
            = s.specifications.lookup "quality")
    ∧ (∀ s : OrderSession,
        back_to_services s = { s with step := OrderStep.service_selection }
        ∧ back_to_contacts s = { s with step := OrderStep.contact_info }
        ∧ back_to_files s = { s with step := OrderStep.file_upload }
        ∧ back_to_specs s = { s with step := OrderStep.specifications }
        ∧ back_to_delivery s = { s with step := OrderStep.delivery }
        ∧ back_to_confirmation s
            = { s with step := OrderStep.confirmation }) := by
  have hBM : ∀ s : OrderSession,
      dictHasKey (back_to_material s).specifications "quality" = false
      ∧ dictHasKey (back_to_material s).specifications "infill" = false := by
    intro s
    constructor
    · show dictHasKey
        (dictPop (dictPop s.specifications "quality") "infill") "quality"
          = false
      rw [dictHasKey_dictPop_ne _ _ _ (by decide)]
      exact dictHasKey_dictPop_self _ _
    · exact dictHasKey_dictPop_self _ _
  refine ⟨hBM, ?_, ?_, ?_⟩
  · intro s m
    unfold handle_material_selection
    by_cases hstep : (back_to_material s).step = OrderStep.specifications
    · rw [if_pos hstep]
      refine ⟨?_, ?_, ?_⟩
      · show dictHasKey
          (dictSet (back_to_material s).specifications "material" m)
            "quality" = false
        rw [dictHasKey_dictSet_ne _ _ _ _ (by decide)]
        exact (hBM s).1
      · show dictHasKey
          (dictSet (back_to_material s).specifications "material" m)
            "infill" = false
        rw [dictHasKey_dictSet_ne _ _ _ _ (by decide)]
        exact (hBM s).2
      · intro hstep2
        exact lookup_dictSet_self _ _ _
    · rw [if_neg hstep]
      refine ⟨(hBM s).1, (hBM s).2, ?_⟩
      intro hstep2
      exact absurd (show (back_to_material s).step
        = OrderStep.specifications from hstep2) hstep
  · intro s m hm hmne
    unfold back_to_quality
    rw [hm]
    dsimp only
    rw [if_pos (by simp [hmne])]
    unfold handle_material_selection
    by_cases hstep : s.step = OrderStep.specifications
    · rw [if_pos (by exact hstep)]
      refine ⟨?_, ?_, ?_⟩
      · show dictHasKey
          (dictSet (dictPop s.specifications "infill") "material" m)
            "infill" = false
        rw [dictHasKey_dictSet_ne _ _ _ _ (by decide)]
        exact dictHasKey_dictPop_self _ _
      · exact lookup_dictSet_self _ _ _
      · show (dictSet (dictPop s.specifications "infill") "material" m
            ).lookup "quality" = s.specifications.lookup "quality"
        rw [lookup_dictSet_ne _ _ _ _ (by decide),
          lookup_dictPop_ne _ _ _ (by decide)]
    · rw [if_neg (by exact hstep)]
      refine ⟨dictHasKey_dictPop_self _ _, ?_, ?_⟩
      · show (dictPop s.specifications "infill").lookup "material" = some m
        rw [lookup_dictPop_ne _ _ _ (by decide)]
        exact hm
      · show (dictPop s.specifications "infill").lookup "quality"
            = s.specifications.lookup "quality"
        exact lookup_dictPop_ne _ _ _ (by decide)
  · intro s
    exact ⟨rfl, rfl, rfl, rfl, rfl, rfl⟩

/-- C8 (witness): the amended statement applied to the concrete session
with material `pla`, quality `standard`, infill `30`. -/

theorem c8_amended_witness :
    dictHasKey (back_to_quality c8FullSpecSession).specifications "infill"
        = false
      ∧ (back_to_quality c8FullSpecSession).specifications.lookup "material"
        = some "pla" :=
  ⟨(c8_backward_navigation_amended.2.2.1 c8FullSpecSession "pla" rfl
      (by decide)).1,
   (c8_backward_navigation_amended.2.2.1 c8FullSpecSession "pla" rfl
      (by decide)).2.1⟩

/-- C1 (counterexample).  The code's payload differs from the claimed
mapping: with a phone set, the specifications dict gains a
`customer_phone` key the claim does not allow; and with
`delivery_needed = False` but truthy details, the payload carries a
`delivery_details` key although the claim adds it only when delivery is
needed. -/

theorem c1_counterexample :
    (OrderSession.to_order_data c1PhoneSession
        ≠ to_order_data_claim c1PhoneSession
      ∧ (match (OrderSession.to_order_data c1PhoneSession).lookup
            "specifications" with
         | some (PVal.dict d) => d.lookup "customer_phone"
         | _ => none) = some (SVal.vStr "+79001234567"))
    ∧ (OrderSession.to_order_data c1PickupDetailsSession
        ≠ to_order_data_claim c1PickupDetailsSession
      ∧ (OrderSession.to_order_data c1PickupDetailsSession).lookup
          "delivery_details" = some (PVal.leaf (SVal.vStr "Pickup point 5"))
      ∧ c1PickupDetailsSession.delivery_needed = some false) := by
  decide

theorem dictHasKey_map_vStr (d : List (String × String)) (k : String) :
    dictHasKey (d.map (fun p => (p.1, SVal.vStr p.2))) k
      = dictHasKey d k := by
  induction d with
  | nil => rfl
  | cons a d ih =>
    simp only [dictHasKey, List.map_cons, List.any_cons] at ih ⊢
    rw [ih]

/-- C1 (amended).  For every session whose specifications map does not
itself use the four injected key names, `to_order_data` is exactly the
claimed mapping extended by two rules: a truthy `customer_phone` is also
copied into the specifications dict, and `delivery_details` is emitted
whenever `delivery_needed` is non-null and the details are truthy (even
for pickup orders). -/

theorem c1_to_order_data_amended :
    ∀ s : OrderSession,
      dictHasKey s.specifications "files_info" = false →
      dictHasKey s.specifications "order_source" = false →
      dictHasKey s.specifications "bot_user_id" = false →
      dictHasKey s.specifications "customer_phone" = false →
      s.to_order_data = to_order_data_amended s := by
  intro s h1 h2 h3 h4
  unfold OrderSession.to_order_data to_order_data_amended
  dsimp only
  rw [dictSet_of_absent _ "files_info" _ (by rw [dictHasKey_map_vStr]; exact h1)]
  rw [dictSet_of_absent _ "order_source" _
    (by rw [dictHasKey_append, dictHasKey_map_vStr, h2, dictHasKey_single]
        decide)]
  rw [dictSet_of_absent _ "bot_user_id" _
    (by rw [dictHasKey_append, dictHasKey_append, dictHasKey_map_vStr, h3,
          dictHasKey_single, dictHasKey_single]
        decide)]
  have hspecsPhone :
      (if truthyOpt s.customer_phone then
        dictSet
          (((s.specifications.map (fun p => (p.1, SVal.vStr p.2))
              ++ [("files_info", SVal.vFiles s.files)])
              ++ [("order_source", SVal.vStr "telegram_bot")])
              ++ [("bot_user_id", SVal.vNat s.user_id)])
          "customer_phone" (optStrVal s.customer_phone)
      else
        (((s.specifications.map (fun p => (p.1, SVal.vStr p.2))
            ++ [("files_info", SVal.vFiles s.files)])
            ++ [("order_source", SVal.vStr "telegram_bot")])
            ++ [("bot_user_id", SVal.vNat s.user_id)]))
      = s.specifications.map (fun p => (p.1, SVal.vStr p.2))
          ++ [("files_info", SVal.vFiles s.files),
              ("order_source", SVal.vStr "telegram_bot"),
              ("bot_user_id", SVal.vNat s.user_id)]
          ++ (if truthyOpt s.customer_phone then
                [("customer_phone", optStrVal s.customer_phone)]
              else []) := by
    by_cases ht : truthyOpt s.customer_phone = true
    · rw [if_pos ht, if_pos ht,
        dictSet_of_absent _ "customer_phone" _
          (by rw [dictHasKey_append, dictHasKey_append, dictHasKey_append,
                dictHasKey_map_vStr, h4, dictHasKey_single, dictHasKey_single,
                dictHasKey_single]
              decide)]
      simp [List.append_assoc]
    · rw [if_neg ht, if_neg ht]
      simp [List.append_assoc]
  rw [hspecsPhone]
  cases hdn : s.delivery_needed with
  | none =>
    dsimp only
    rw [dictSet_of_absent _ "customer_contact" _ (by simp [dictHasKey])]
    simp
  | some b =>
    dsimp only
    rw [dictSet_of_absent _ "delivery_needed" _ (by simp [dictHasKey])]
    by_cases htd : truthyOpt s.delivery_details = true
    · rw [if_pos htd, if_pos htd]
      rw [dictSet_of_absent _ "delivery_details" _
        (by simp [dictHasKey_append, dictHasKey])]
      rw [dictSet_of_absent _ "customer_contact" _
        (by simp [dictHasKey_append, dictHasKey])]
      simp
    · rw [if_neg htd, if_neg htd]
      rw [dictSet_of_absent _ "customer_contact" _
        (by simp [dictHasKey_append, dictHasKey])]

/-- C1 (witness): the amended payload equation on the concrete session
with a phone set; the hypotheses hold since its specifications keys are
exactly material/quality/infill. -/

theorem c1_amended_witness :
    OrderSession.to_order_data c1PhoneSession
      = to_order_data_amended c1PhoneSession :=
  c1_to_order_data_amended c1PhoneSession (by decide) (by decide)
    (by decide) (by decide)

/-! ## Claim C10 — stored emails are lowercased -/

theorem toLower_idem (c : Char) :
    Char.toLower (Char.toLower c) = Char.toLower c := by
  by_cases h : 65 ≤ c.toNat ∧ c.toNat ≤ 90
  · have h1 := toLower_toNat_of_upper c h
    rw [toLower_of_not_upper (Char.toLower c) (by omega)]
  · rw [toLower_of_not_upper c h, toLower_of_not_upper c h]

theorem lookup_to_order_data_email (s : OrderSession) :
    s.to_order_data.lookup "customer_email"
        = some (PVal.leaf (optStrVal s.customer_email))
      ∧ s.to_order_data.lookup "customer_contact"
        = some (PVal.leaf (optStrVal s.customer_email)) := by
  unfold OrderSession.to_order_data
  dsimp only
  constructor
  · rw [lookup_dictSet_ne _ _ _ _ (by decide)]
    cases s.delivery_needed with
    | none =>
      dsimp only
      simp [List.lookup]
    | some b =>
      dsimp only
      by_cases htd : truthyOpt s.delivery_details = true
      · rw [if_pos htd, lookup_dictSet_ne _ _ _ _ (by decide),
          lookup_dictSet_ne _ _ _ _ (by decide)]
        simp [List.lookup]
      · rw [if_neg htd, lookup_dictSet_ne _ _ _ _ (by decide)]
        simp [List.lookup]
  · exact lookup_dictSet_self _ _ _

/-- C10.  When an email is accepted at `CONTACT_INFO`, the stored
`customer_email` is the input stripped and lowercased; it is a fixed point
of lowercasing (fully lowercase), and in the payload of any session
holding it, both `customer_email` and `customer_contact` carry that
lowercase string. -/

theorem c10_email_lowercase :
    ∀ (s : OrderSession) (e : String),
      s.step = OrderStep.contact_info →
      validate_email e = true →
      (handle_contact_email s e).customer_email
          = some (pyLower (pyStrip e))
      ∧ (∀ c ∈ (pyLower (pyStrip e)).toList, Char.toLower c = c)
      ∧ ∀ s2 : OrderSession,
          s2.customer_email = some (pyLower (pyStrip e)) →
          s2.to_order_data.lookup "customer_email"
            = some (PVal.leaf (SVal.vStr (pyLower (pyStrip e))))
          ∧ s2.to_order_data.lookup "customer_contact"
            = some (PVal.leaf (SVal.vStr (pyLower (pyStrip e)))) := by
  intro s e hstep hval
  refine ⟨?_, ?_, ?_⟩
  · unfold handle_contact_email
    rw [if_pos hstep, if_pos hval]
  · intro c hc
    obtain ⟨a, ha, rfl⟩ := List.mem_map.mp hc
    exact toLower_idem a
  · intro s2 h2
    have hl := lookup_to_order_data_email s2
    rw [h2] at hl
    exact ⟨by simpa [optStrVal] using hl.1,
      by simpa [optStrVal] using hl.2⟩

/-- C10 (witness): the mixed-case padded input `"  JANE@X.com "` is stored
as `"jane@x.com"`. -/

theorem c10_witness :
    (handle_contact_email c10DemoSession "  JANE@X.com ").customer_email
      = some "jane@x.com" := by
  rw [(c10_email_lowercase c10DemoSession "  JANE@X.com " rfl
    (by decide)).1]
  decide

theorem sessionInv_start (uid : Nat) : SessionInv (start_order uid) := by
  refine ⟨?_, ?_, ?_, ?_, ?_, ?_⟩
  · intro e he
    exact absurd he (by simp [start_order])
  · rintro (h | h | h | h) <;> simp [start_order] at h
  · intro h
    exact absurd rfl h
  · rintro (h | h | h) <;> simp [start_order] at h
  · rintro (h | h) <;> simp [start_order] at h
  · intro h
    simp [start_order] at h

theorem sessionInv_service (s : OrderSession) (sid : Nat) (sname : String)
    (found : Bool) (inv : SessionInv s) :
    SessionInv (handle_service_selection s sid sname found) := by
  unfold handle_service_selection
  by_cases hf : found = true
  · rw [if_pos hf]
    refine ⟨inv.email_ok, ?_, inv.contact_of_files, ?_, ?_, ?_⟩
    · rintro (h | h | h | h) <;> simp at h
    · rintro (h | h | h) <;> simp at h
    · rintro (h | h) <;> simp at h
    · intro h
      simp at h
  · rw [if_neg hf]
    exact inv

theorem sessionInv_contact_name (s : OrderSession) (t : String)
    (inv : SessionInv s) : SessionInv (handle_contact_name s t) := by
  unfold handle_contact_name
  by_cases hstep : s.step = OrderStep.contact_info
  · rw [if_pos hstep]
    by_cases hv : validate_name t = true
    · rw [if_pos hv]
      have hstored : truthyOpt (some (pyStrip t)) = true := by
        simp [truthyOpt, validate_name_stored t hv]
      refine ⟨inv.email_ok, ?_, ?_, ?_, ?_, ?_⟩
      · rintro (h | h | h | h) <;>
          (rw [show ({s with customer_name := some (pyStrip t)}
              : OrderSession).step = s.step from rfl, hstep] at h
           simp at h)
      · intro hf
        exact ⟨hstored, (inv.contact_of_files hf).2⟩
      · rintro (h | h | h) <;>
          (rw [show ({s with customer_name := some (pyStrip t)}
              : OrderSession).step = s.step from rfl, hstep] at h
           simp at h)
      · rintro (h | h) <;>
          (rw [show ({s with customer_name := some (pyStrip t)}
              : OrderSession).step = s.step from rfl, hstep] at h
           simp at h)
      · intro h
        rw [show ({s with customer_name := some (pyStrip t)}
            : OrderSession).step = s.step from rfl, hstep] at h
        simp at h
    · rw [if_neg hv]
      exact inv
  · rw [if_neg hstep]
    exact inv

theorem sessionInv_of_early (s : OrderSession)
    (hstep : s.step = OrderStep.start
      ∨ s.step = OrderStep.service_selection
      ∨ s.step = OrderStep.contact_info
      ∨ s.step = OrderStep.completed)
    (he : ∀ e, s.customer_email = some e →
      validate_email e = true ∧ e ≠ "")
    (hcf : s.files ≠ [] →
      truthyOpt s.customer_name = true ∧ truthyOpt s.customer_email = true) :
    SessionInv s := by
  refine ⟨he, ?_, hcf, ?_, ?_, ?_⟩
  · rintro (h | h | h | h) <;>
      (rcases hstep with h2 | h2 | h2 | h2 <;> (rw [h2] at h; simp at h))
  · rintro (h | h | h) <;>
      (rcases hstep with h2 | h2 | h2 | h2 <;> (rw [h2] at h; simp at h))
  · rintro (h | h) <;>
      (rcases hstep with h2 | h2 | h2 | h2 <;> (rw [h2] at h; simp at h))
  · intro h
    rcases hstep with h2 | h2 | h2 | h2 <;> (rw [h2] at h; simp at h)

theorem sessionInv_of_file_step (s : OrderSession)
    (hstep : s.step = OrderStep.file_upload)
    (he : ∀ e, s.customer_email = some e →
      validate_email e = true ∧ e ≠ "")
    (hca : truthyOpt s.customer_name = true
      ∧ truthyOpt s.customer_email = true) :
    SessionInv s := by
  refine ⟨he, fun _ => hca, fun _ => hca, ?_, ?_, ?_⟩
  · rintro (h | h | h) <;> (rw [hstep] at h; simp at h)
  · rintro (h | h) <;> (rw [hstep] at h; simp at h)
  · intro h
    rw [hstep] at h
    simp at h

theorem sessionInv_contact_email (s : OrderSession) (t : String)
    (inv : SessionInv s) : SessionInv (handle_contact_email s t) := by
  unfold handle_contact_email
  by_cases hstep : s.step = OrderStep.contact_info
  · rw [if_pos hstep]
    by_cases hv : validate_email t = true
    · rw [if_pos hv]
      have hstored := validate_email_stored t hv
      refine sessionInv_of_early _ (Or.inr (Or.inr (Or.inl hstep))) ?_ ?_
      · intro e he
        rw [Option.some_inj] at he
        exact ⟨he ▸ hstored.1, he ▸ hstored.2⟩
      · intro hf
        refine ⟨(inv.contact_of_files hf).1, ?_⟩
        simp [truthyOpt, hstored.2]
    · rw [if_neg hv]
      exact inv
  · rw [if_neg hstep]
    exact inv

theorem sessionInv_contact_phone (s : OrderSession) (t : String)
    (inv : SessionInv s)
    (hn : truthyOpt s.customer_name = true)
    (he : truthyOpt s.customer_email = true) :
    SessionInv (handle_contact_phone s t) := by
  unfold handle_contact_phone
  by_cases hstep : s.step = OrderStep.contact_info
  · rw [if_pos hstep]
    by_cases hbad : t ≠ "" ∧ validate_phone t = false
    · rw [if_pos hbad]
      exact inv
    · rw [if_neg hbad]
      exact sessionInv_of_file_step _ rfl inv.email_ok ⟨hn, he⟩
  · rw [if_neg hstep]
    exact inv

theorem sessionInv_skip_phone (s : OrderSession) (inv : SessionInv s)
    (hn : truthyOpt s.customer_name = true)
    (he : truthyOpt s.customer_email = true) :
    SessionInv (skip_phone_step s) := by
  unfold skip_phone_step
  by_cases hstep : s.step = OrderStep.contact_info
  · rw [if_pos hstep]
    exact sessionInv_of_file_step _ rfl inv.email_ok ⟨hn, he⟩
  · rw [if_neg hstep]
    exact inv

theorem sessionInv_text (s : OrderSession) (t : String)
    (inv : SessionInv s) : SessionInv (dispatchText s t) := by
  unfold dispatchText
  by_cases hstep : s.step = OrderStep.contact_info
  · rw [if_pos hstep]
    by_cases hn : truthyOpt s.customer_name = true
    · rw [if_neg (by simp [hn])]
      by_cases hem : truthyOpt s.customer_email = true
      · rw [if_neg (by simp [hem])]
        by_cases hp : s.customer_phone = none
        · rw [if_pos hp]
          exact sessionInv_contact_phone s t inv hn hem
        · rw [if_neg hp]
          exact inv
      · rw [if_pos (by simp [Bool.eq_false_iff.mpr hem])]
        exact sessionInv_contact_email s t inv
    · rw [if_pos (by simp [Bool.eq_false_iff.mpr hn])]
      exact sessionInv_contact_name s t inv
  · rw [if_neg hstep]
    by_cases hd : s.step = OrderStep.delivery ∧ s.delivery_needed = some true
    · rw [if_pos hd]
      unfold handle_delivery_address
      rw [if_pos hd.1]
      by_cases hlen : (pyStripL t.toList).length < 10
      · rw [if_pos hlen]
        exact inv
      · rw [if_neg hlen]
        refine ⟨inv.email_ok,
          fun _ => inv.contact_at_later (Or.inr (Or.inr (Or.inl hd.1))),
          inv.contact_of_files,
          fun _ => inv.files_at_later (Or.inr (Or.inl hd.1)),
          fun _ => inv.specs_at_later (Or.inl hd.1), ?_⟩
        intro h
        exact ⟨by simp [hd.2], Or.inr (by simp)⟩
    · rw [if_neg hd]
      exact inv

theorem sessionInv_upload (s : OrderSession) (doc : Option TgDocument)
    (ok : Bool) (res : String) (inv : SessionInv s) :
    SessionInv (handle_file_upload s doc ok res).1 := by
  have hcases : (handle_file_upload s doc ok res).1 = s
      ∨ (s.step = OrderStep.file_upload
        ∧ ∃ fi : FileInfo, (handle_file_upload s doc ok res).1
            = { s with files := s.files ++ [fi] }) := by
    unfold handle_file_upload
    by_cases hstep : s.step = OrderStep.file_upload
    · rw [if_neg (by simp [hstep])]
      cases doc with
      | none => exact Or.inl rfl
      | some f =>
        dsimp only
        cases f.file_name with
        | none => exact Or.inl rfl
        | some fname =>
          dsimp only
          by_cases hempty : fname = ""
          · rw [if_pos hempty]
            exact Or.inl rfl
          · rw [if_neg hempty]
            by_cases hfmt : fileFormatOk fname = true
            · rw [if_neg (by simp [hfmt])]
              by_cases hbig : (match f.file_size with
                  | some n => decide (n ≠ 0) && decide (n > maxFileSize)
                  | none => false) = true
              · rw [if_pos hbig]
                exact Or.inl rfl
              · rw [if_neg hbig]
                by_cases hok : ok = true
                · rw [if_pos hok]
                  exact Or.inr ⟨hstep, _, rfl⟩
                · rw [if_neg hok]
                  exact Or.inl rfl
            · rw [if_pos (by simp [Bool.eq_false_iff.mpr hfmt])]
              exact Or.inl rfl
    · rw [if_pos (by simp [hstep])]
      exact Or.inl rfl
  rcases hcases with h | ⟨hstep, fi, h⟩
  · rw [h]
    exact inv
  · rw [h]
    exact sessionInv_of_file_step _ hstep inv.email_ok
      (inv.contact_at_later (Or.inl hstep))

theorem sessionInv_continue (s : OrderSession) (inv : SessionInv s) :
    SessionInv (continue_with_files s) := by
  unfold continue_with_files
  by_cases hf : s.files ≠ []
  · rw [if_pos hf]
    have hca := inv.contact_of_files hf
    refine ⟨inv.email_ok, fun _ => hca, fun _ => hca, fun _ => hf, ?_, ?_⟩
    · rintro (h | h) <;> simp at h
    · intro h
      simp at h
  · rw [if_neg hf]
    exact inv

theorem sessionInv_material (s : OrderSession) (m : String)
    (inv : SessionInv s) : SessionInv (handle_material_selection s m) := by
  unfold handle_material_selection
  by_cases hstep : s.step = OrderStep.specifications
  · rw [if_pos hstep]
    refine ⟨inv.email_ok,
      fun _ => inv.contact_at_later (Or.inr (Or.inl hstep)),
      inv.contact_of_files,
      fun _ => inv.files_at_later (Or.inl hstep), ?_, ?_⟩
    · rintro (h | h) <;> (dsimp only at h; rw [hstep] at h; simp at h)
    · intro h
      dsimp only at h
      rw [hstep] at h
      simp at h
  · rw [if_neg hstep]
    exact inv

theorem sessionInv_quality (s : OrderSession) (q : String)
    (inv : SessionInv s) : SessionInv (handle_quality_selection s q) := by
  unfold handle_quality_selection
  by_cases hstep : s.step = OrderStep.specifications
  · rw [if_pos hstep]
    refine ⟨inv.email_ok,
      fun _ => inv.contact_at_later (Or.inr (Or.inl hstep)),
      inv.contact_of_files,
      fun _ => inv.files_at_later (Or.inl hstep), ?_, ?_⟩
    · rintro (h | h) <;> (dsimp only at h; rw [hstep] at h; simp at h)
    · intro h
      dsimp only at h
      rw [hstep] at h
      simp at h
  · rw [if_neg hstep]
    exact inv

theorem sessionInv_infill (s : OrderSession) (i : String)
    (inv : SessionInv s)
    (hm : dictHasKey s.specifications "material" = true)
    (hq : dictHasKey s.specifications "quality" = true) :
    SessionInv (handle_infill_selection s i) := by
  unfold handle_infill_selection
  by_cases hstep : s.step = OrderStep.specifications
  · rw [if_pos hstep]
    refine ⟨inv.email_ok,
      fun _ => inv.contact_at_later (Or.inr (Or.inl hstep)),
      inv.contact_of_files,
      fun _ => inv.files_at_later (Or.inl hstep), ?_, ?_⟩
    · intro h
      refine ⟨?_, ?_, ?_⟩
      · show dictHasKey (dictSet s.specifications "infill" i)
          "material" = true
        rw [dictHasKey_dictSet_ne _ _ _ _ (by decide)]
        exact hm
      · show dictHasKey (dictSet s.specifications "infill" i)
          "quality" = true
        rw [dictHasKey_dictSet_ne _ _ _ _ (by decide)]
        exact hq
      · exact dictHasKey_dictSet_self _ _ _
    · intro h
      simp at h
  · rw [if_neg hstep]
    exact inv

theorem sessionInv_pickup (s : OrderSession) (inv : SessionInv s) :
    SessionInv (handle_delivery_pickup s) := by
  unfold handle_delivery_pickup
  by_cases hstep : s.step = OrderStep.delivery
  · rw [if_pos hstep]
    exact ⟨inv.email_ok,
      fun _ => inv.contact_at_later (Or.inr (Or.inr (Or.inl hstep))),
      inv.contact_of_files,
      fun _ => inv.files_at_later (Or.inr (Or.inl hstep)),
      fun _ => inv.specs_at_later (Or.inl hstep),
      fun _ => ⟨by simp, Or.inl rfl⟩⟩
  · rw [if_neg hstep]
    exact inv

theorem sessionInv_shipping (s : OrderSession) (inv : SessionInv s) :
    SessionInv (handle_delivery_shipping s) := by
  unfold handle_delivery_shipping
  by_cases hstep : s.step = OrderStep.delivery
  · rw [if_pos hstep]
    refine ⟨inv.email_ok, ?_, inv.contact_of_files, ?_, ?_, ?_⟩
    · intro h
      exact inv.contact_at_later (by
        rw [show ({s with delivery_needed := some true}
          : OrderSession).step = s.step from rfl] at h
        exact h)
    · intro h
      exact inv.files_at_later (by
        rw [show ({s with delivery_needed := some true}
          : OrderSession).step = s.step from rfl] at h
        exact h)
    · intro h
      exact inv.specs_at_later (by
        rw [show ({s with delivery_needed := some true}
          : OrderSession).step = s.step from rfl] at h
        exact h)
    · intro h
      rw [show ({s with delivery_needed := some true}
        : OrderSession).step = s.step from rfl, hstep] at h
      simp at h
  · rw [if_neg hstep]
    exact inv

theorem sessionInv_confirm (s : OrderSession) (apiOk : Bool)
    (inv : SessionInv s) : SessionInv (confirm_session s apiOk) := by
  unfold confirm_session
  by_cases hg : s.step = OrderStep.confirmation
      ∧ validate_order_data s = none ∧ s.is_complete = true ∧ apiOk = true
  · rw [if_pos hg]
    exact sessionInv_of_early _ (Or.inr (Or.inr (Or.inr rfl)))
      inv.email_ok inv.contact_of_files
  · rw [if_neg hg]
    exact inv

theorem forwardReachable_inv (s : OrderSession)
    (h : ForwardReachable s) : SessionInv s := by
  induction h with
  | created uid => exact sessionInv_start uid
  | restart _ _ => exact sessionInv_start _
  | service sid sname found _ ih =>
    exact sessionInv_service _ sid sname found ih
  | text t _ ih => exact sessionInv_text _ t ih
  | skip _ hn he ih => exact sessionInv_skip_phone _ ih hn he
  | upload doc ok res _ ih => exact sessionInv_upload _ doc ok res ih
  | contFiles _ ih => exact sessionInv_continue _ ih
  | material m _ ih => exact sessionInv_material _ m ih
  | quality q _ _ ih => exact sessionInv_quality _ q ih
  | infill i _ hm hq ih => exact sessionInv_infill _ i ih hm hq
  | pickupStep _ ih => exact sessionInv_pickup _ ih
  | shippingStep _ ih => exact sessionInv_shipping _ ih
  | confirmStep apiOk _ ih => exact sessionInv_confirm _ apiOk ih

/-- C3 (counterexample).  The edit-menu navigation
`back_to_confirmation` has no guard: pressed on a freshly created
session, it yields a reachable state at `CONFIRMATION` with
`customer_name` still null, violating the claimed invariant. -/

theorem c3_counterexample :
    ReachableSession (applyAct Act.backConfirmation (start_order 1))
      ∧ (applyAct Act.backConfirmation (start_order 1)).step
          = OrderStep.confirmation
      ∧ (applyAct Act.backConfirmation (start_order 1)).customer_name
          = none :=
  ⟨ReachableSession.next Act.backConfirmation (ReachableSession.created 1),
   rfl, rfl⟩

/-- C3 (amended).  In every session reachable via the forward transitions
only (service selection, contact text routed by field nullability, phone
skip after name and email, upload, continue-with-files, material, quality
after material, infill after quality, pickup/shipping/address, confirm) —
excluding backward navigation, edit-menu navigation and remove-last-file,
which are unguarded and can violate it — a session at `CONFIRMATION`
satisfies the full §3 invariant. -/

theorem c3_confirmation_invariant_amended :
    ∀ s : OrderSession, ForwardReachable s →
      s.step = OrderStep.confirmation → ConfirmationInvariant s := by
  intro s h hstep
  have inv := forwardReachable_inv s h
  have hca := inv.contact_at_later (Or.inr (Or.inr (Or.inr hstep)))
  have hspecs := inv.specs_at_later (Or.inr hstep)
  have hfiles := inv.files_at_later (Or.inr (Or.inr hstep))
  have hdel := inv.delivery_at_conf hstep
  refine ⟨?_, ?_, hfiles, hspecs.1, hspecs.2.1, hspecs.2.2,
    hdel.1, hdel.2⟩
  · intro hn
    rw [hn] at hca
    simp [truthyOpt] at hca
  · cases hm : s.customer_email with
    | none =>
      rw [hm] at hca
      simp [truthyOpt] at hca
    | some e => exact ⟨e, rfl, (inv.email_ok e hm).1⟩

/-- C3 (witness): the amended invariant applied to the concrete
happy-path session, which sits at `CONFIRMATION`. -/

theorem c3_amended_witness :
    forwardDemoSession.step = OrderStep.confirmation
      ∧ ConfirmationInvariant forwardDemoSession := by
  have hreach : ForwardReachable forwardDemoSession :=
    ForwardReachable.pickupStep
      (ForwardReachable.infill "30"
        (ForwardReachable.quality "standard"
          (ForwardReachable.material "pla"
            (ForwardReachable.contFiles
              (ForwardReachable.upload (some stlDoc) true "stored/1"
                (ForwardReachable.skip
                  (ForwardReachable.text "jane@x.com"
                    (ForwardReachable.text "Jane Doe"
                      (ForwardReachable.service 1 "3D print" true
                        (ForwardReachable.created 1))))
                  (by decide) (by decide)))))
          (by decide))
        (by decide) (by decide))
  exact ⟨by decide,
    c3_confirmation_invariant_amended _ hreach (by decide)⟩
